import Mathlib

/-!
Verification of the bld pipeline-execution core.

The Rust sources under bld_runner/src/sync (runner.rs, platform.rs),
bld_supervisor/src/client/server.rs are embedded shallowly:

* machine strings are `List Char`; Rust `String::replace` is `replaceAll`;
* the effectful runner (`Runner::run` and its helpers) becomes a pure
  interpreter producing a trace of events, with an `Oracle` deciding the
  outcome of every external effect (artifact copies, shell commands,
  stop-signal polls, dispose), a fuel bound for recursive child runners,
  and a counter for the stop-signal receiver;
* code of the repository that lives outside the provided sources
  (the token constants of bld_config::definitions, the Machine/Container
  context types, the CheckStopSignal helper, the supervisor base types)
  is modelled from the specification, as marked on each definition.
-/

set_option maxHeartbeats 1000000
set_option linter.unusedVariables false

namespace Bld

/-- Machine strings, embedded as lists of characters. -/
abbrev LC := List Char

/-- Fuelled worker for `replaceAll`; the fuel is an upper bound on the length
of the string still to be scanned, so the `0, s` arm is never reached when the
fuel starts at the string length. -/
def replaceAllGo (pat rep : LC) : Nat → LC → LC
  | _, [] => []
  | 0, s => s
  | n+1, c :: cs =>
    if pat ≠ [] ∧ pat <+: (c :: cs) then
      rep ++ replaceAllGo pat rep n (List.drop (pat.length - 1) cs)
    else
      c :: replaceAllGo pat rep n cs

/-- Rust `str::replace`: replace every (leftmost, non-overlapping) occurrence
of `pat` in `s` by `rep`.  An empty pattern is treated as matching nowhere;
the runner only ever replaces nonempty patterns. -/
def replaceAll (pat rep s : LC) : LC := replaceAllGo pat rep s.length s

/-- Does `pat` occur as a contiguous substring of `s`? -/
def containsSub (pat : LC) : LC → Bool
  | [] => decide (pat = [])
  | c :: cs => decide (pat <+: (c :: cs)) || containsSub pat cs

/-- Concatenation of a list of string pieces. -/
def joinAll : List LC → LC
  | [] => []
  | c :: cs => c ++ joinAll cs

/-- `s` does not mention the character `g`. -/
def gfree (g : Char) (s : LC) : Bool := decide (g ∉ s)

/-- `p` is nonempty, starts with `g`, and mentions `g` nowhere else. -/
def headedBy (g : Char) (p : LC) : Bool :=
  match p with
  | [] => false
  | c :: cs => decide (c = g) && gfree g cs

/-- Sequential substitution of a list of pattern/replacement pairs,
exactly the shape of the interpolation loops in Runner::apply_environment /
apply_variables / apply_run_properties. -/
def foldReplace (pvs : List (LC × LC)) (s : LC) : LC :=
  pvs.foldl (fun acc pv => replaceAll pv.1 pv.2 acc) s

/-- The effect of `foldReplace` on one whole token piece: the first pair whose
pattern equals the piece wins, other pieces are untouched. -/
def substPiece (pvs : List (LC × LC)) (c : LC) : LC :=
  match pvs with
  | [] => c
  | pv :: rest => if pv.1 = c then pv.2 else substPiece rest c

/-- An environment or variable declaration of a parsed pipeline
(name plus default value), as consumed by RunnerBuilder::build. -/
structure EnvDecl where
  name : LC
  default_value : LC
deriving DecidableEq

/-- An artifact declaration of a parsed pipeline, with the fields read by
Runner::artifacts.  Rust field names `from`/`to` become `afrom`/`ato`
(`from` is a Lean keyword). -/
structure Artifact where
  method : Option LC
  afrom : Option LC
  ato : Option LC
  after : Option LC
  ignore_errors : Bool
deriving DecidableEq

/-- A build step of a parsed pipeline, with the fields read by Runner::step,
Runner::call and Runner::sh. -/
structure BuildStep where
  name : Option LC
  working_dir : Option LC
  call : List LC
  commands : List LC
deriving DecidableEq

/-- The runs_on selector of a pipeline: host machine or a docker image. -/
inductive RunsOn
  | machine
  | docker (image : LC)
deriving DecidableEq

/-- A parsed pipeline, with the fields read by the Runner.  The Rust field
`variables` becomes `vars` (`variables` is reserved in Lean). -/
structure Pipeline where
  name : Option LC
  runs_on : RunsOn
  environment : List EnvDecl
  vars : List EnvDecl
  artifacts : List Artifact
  steps : List BuildStep
  dispose : Bool
deriving DecidableEq

/-- Modelled from the spec: the token constants of bld_config::definitions
(ENV_TOKEN, VAR_TOKEN, RUN_PROPS_ID, RUN_PROPS_START_TIME, PUSH, GET), whose
source is not part of the provided files.  The spec fixes three recognized
token shapes, each a literal prefix followed by a name, and the two artifact
method strings; the concrete spellings stay abstract parameters here. -/
structure Tokens where
  ENV_TOKEN : LC
  VAR_TOKEN : LC
  RUN_PROPS_ID : LC
  RUN_PROPS_START_TIME : LC
  PUSH : LC
  GET : LC

/-- Errors of the embedded runner, standing for the anyhow errors of the
Rust code (plus `panicked` for the unreachable! arm of Runner::artifacts and
`outOfFuel` for exhausting the child-recursion bound of the embedding). -/
inductive RErr
  | cancelled
  | copyFailed
  | shellFailed
  | buildFailed
  | platformInitFailed
  | disposeFailed
  | panicked
  | outOfFuel
deriving DecidableEq

/-- Result of a runner operation. -/
inductive RRes
  | ok
  | fail (e : RErr)
deriving DecidableEq

/-- Observable events of a run, one constructor per effectful call site of
runner.rs (executor updates, logger lines, artifact copies, shell commands,
stop-signal polls, platform disposal). -/
inductive Event
  | updateRunning (b : Bool)
  | logPipName (n : LC)
  | logRunsOn (ro : RunsOn)
  | logStep (n : LC)
  | logCopy (cfrom cto : LC)
  | logErr (e : RErr)
  | copyPush (cfrom cto : LC)
  | copyGet (cfrom cto : LC)
  | shell (wd : Option LC) (cmd : LC)
  | checkStop
  | removeTempDir (id : LC)
  | removeContainer (img : LC)
deriving DecidableEq

abbrev Trace := List Event

/-- Oracle deciding the outcome of every external effect: artifact copies
(keyed by direction and paths), shell commands, the stop-signal stream
(`stop n` is whether the n-th poll of the receiver observes a cancel token),
platform disposal, and platform construction in RunnerBuilder::build. -/
structure Oracle where
  copyOk : Bool → LC → LC → Bool
  shellOk : Option LC → LC → Bool
  stop : Nat → Bool
  machineDisposeOk : LC → Bool
  containerDisposeOk : Bool
  platformInitOk : RunsOn → Bool

/-- Modelled from the spec: the Machine context type (crate::context,
source not provided).  It holds the path of the per-run temporary
directory, which is keyed by the run id; dispose removes that directory. -/
structure Machine where
  run_id : LC

/-- Modelled from the spec: the Container context type (crate::context,
source not provided).  It holds the configured image; dispose stops and
removes the container unconditionally. -/
structure Container where
  image : LC

/-- The platform enum shared by runner.rs (its local TargetPlatform) and
platform.rs. -/
inductive TargetPlatform
  | machine (m : Machine)
  | container (c : Container)

def Machine.copy_into (m : Machine) (o : Oracle) (f t : LC) : Trace × RRes :=
  ([.copyPush f t], if o.copyOk true f t then .ok else .fail .copyFailed)

def Machine.copy_from (m : Machine) (o : Oracle) (f t : LC) : Trace × RRes :=
  ([.copyGet f t], if o.copyOk false f t then .ok else .fail .copyFailed)

def Machine.sh (m : Machine) (o : Oracle) (wd : Option LC) (cmd : LC) :
    Trace × RRes :=
  ([.shell wd cmd], if o.shellOk wd cmd then .ok else .fail .shellFailed)

/-- Modelled from the spec: Machine::dispose removes the per-run temporary
directory (unconditionally; the child-frame guard lives in
platform.rs's TargetPlatform::dispose, not here). -/
def Machine.dispose (m : Machine) (o : Oracle) : Trace × RRes :=
  ([.removeTempDir m.run_id],
    if o.machineDisposeOk m.run_id then .ok else .fail .disposeFailed)

def Container.copy_into (c : Container) (o : Oracle) (f t : LC) : Trace × RRes :=
  ([.copyPush f t], if o.copyOk true f t then .ok else .fail .copyFailed)

def Container.copy_from (c : Container) (o : Oracle) (f t : LC) : Trace × RRes :=
  ([.copyGet f t], if o.copyOk false f t then .ok else .fail .copyFailed)

/-- Container::sh; the receiver argument of the Rust signature is carried
but, per the spec, the container shell polls only the executor state, so it
does not consume stop tokens. -/
def Container.sh (c : Container) (o : Oracle) (wd : Option LC) (cmd : LC)
    (cm : Bool) : Trace × RRes :=
  ([.shell wd cmd], if o.shellOk wd cmd then .ok else .fail .shellFailed)

/-- Container::dispose stops and removes the container. -/
def Container.dispose (c : Container) (o : Oracle) : Trace × RRes :=
  ([.removeContainer c.image],
    if o.containerDisposeOk then .ok else .fail .disposeFailed)

/-- platform.rs TargetPlatform::push. -/
def TargetPlatform.push (p : TargetPlatform) (o : Oracle) (f t : LC) :
    Trace × RRes :=
  match p with
  | .machine m => m.copy_into o f t
  | .container c => c.copy_into o f t

/-- platform.rs TargetPlatform::get. -/
def TargetPlatform.get (p : TargetPlatform) (o : Oracle) (f t : LC) :
    Trace × RRes :=
  match p with
  | .machine m => m.copy_from o f t
  | .container c => c.copy_from o f t

/-- platform.rs TargetPlatform::dispose: for Machine the temp directory is
removed only when not called from a child runner; Container disposal is
unconditional. -/
def TargetPlatform.dispose (p : TargetPlatform) (in_child_runner : Bool)
    (o : Oracle) : Trace × RRes :=
  match p with
  | .machine m => if ¬ in_child_runner then m.dispose o else ([], .ok)
  | .container c => c.dispose o

/-- The executor handle of a Runner: the real persisting executor at the
root, EmptyExec for children. -/
inductive ExecKind
  | real
  | empty
deriving DecidableEq

/-- The Runner state (runner.rs struct Runner): run properties, executor
kind, pipeline proxy, parsed pipeline, presence of the stop-signal
receiver, resolved environment and variables, and the owned platform. -/
structure Runner where
  run_id : LC
  run_start_time : LC
  ex : ExecKind
  prx : LC → Option Pipeline
  pip : Pipeline
  cm : Bool
  env : List (LC × LC)
  vars : List (LC × LC)
  platform : TargetPlatform

/-- Runner::apply_run_properties: substitute the two fixed run-property
tokens (run id first, then start time). -/
def applyRunProperties (tk : Tokens) (r : Runner) (txt : LC) : LC :=
  replaceAll tk.RUN_PROPS_START_TIME r.run_start_time
    (replaceAll tk.RUN_PROPS_ID r.run_id txt)

/-- Runner::apply_environment: first a pass over the resolved environment
map, then a fallback pass over the pipeline-declared defaults. -/
def applyEnvironment (tk : Tokens) (r : Runner) (txt : LC) : LC :=
  let t1 := r.env.foldl
    (fun acc kv => replaceAll (tk.ENV_TOKEN ++ kv.1) kv.2 acc) txt
  r.pip.environment.foldl
    (fun acc e => replaceAll (tk.ENV_TOKEN ++ e.name) e.default_value acc) t1

/-- Runner::apply_variables: same two passes with the variable prefix. -/
def applyVariables (tk : Tokens) (r : Runner) (txt : LC) : LC :=
  let t1 := r.vars.foldl
    (fun acc kv => replaceAll (tk.VAR_TOKEN ++ kv.1) kv.2 acc) txt
  r.pip.vars.foldl
    (fun acc v => replaceAll (tk.VAR_TOKEN ++ v.name) v.default_value acc) t1

/-- Runner::apply_context: run properties, then environment, then
variables. -/
def applyContext (tk : Tokens) (r : Runner) (txt : LC) : LC :=
  applyVariables tk r (applyEnvironment tk r (applyRunProperties tk r txt))

/-- The run-property pattern/value pairs, in substitution order. -/
def propPairs (tk : Tokens) (r : Runner) : List (LC × LC) :=
  [(tk.RUN_PROPS_ID, r.run_id), (tk.RUN_PROPS_START_TIME, r.run_start_time)]

/-- The environment pattern/value pairs, in substitution order: resolved
entries first, declared defaults second. -/
def envPairs (tk : Tokens) (r : Runner) : List (LC × LC) :=
  r.env.map (fun kv => (tk.ENV_TOKEN ++ kv.1, kv.2)) ++
    r.pip.environment.map (fun e => (tk.ENV_TOKEN ++ e.name, e.default_value))

/-- The variable pattern/value pairs, in substitution order. -/
def varPairs (tk : Tokens) (r : Runner) : List (LC × LC) :=
  r.vars.map (fun kv => (tk.VAR_TOKEN ++ kv.1, kv.2)) ++
    r.pip.vars.map (fun v => (tk.VAR_TOKEN ++ v.name, v.default_value))

/-- All pattern/value pairs applied by apply_context, in order. -/
def ctxPairs (tk : Tokens) (r : Runner) : List (LC × LC) :=
  propPairs tk r ++ envPairs tk r ++ varPairs tk r

/-- Resolution of declared environment/variables against caller-supplied
values (RunnerBuilder::build): each declared name maps to the caller value
when present, otherwise to its declared default. -/
def resolveDecls (decls : List EnvDecl) (caller : LC → Option LC) :
    List (LC × LC) :=
  decls.map (fun d => (d.name, (caller d.name).getD d.default_value))

/-- One HashMap insertion: overwrite an existing key, else append. -/
def insertHM (m : List (LC × LC)) (kv : LC × LC) : List (LC × LC) :=
  if m.any (fun e => decide (e.1 = kv.1)) then
    m.map (fun e => if e.1 = kv.1 then kv else e)
  else m ++ [kv]

/-- Collecting an iterator of pairs into a HashMap (later duplicates
overwrite earlier ones); iteration order of the result is modelled as
first-insertion order. -/
def collectHM (l : List (LC × LC)) : List (LC × LC) :=
  l.foldl insertHM []

/-- HashMap::get on the modelled map (last write wins). -/
def hmGet (m : List (LC × LC)) (k : LC) : Option LC :=
  m.foldl (fun acc kv => if kv.1 = k then some kv.2 else acc) none

/-- Modelled from the spec: CheckStopSignal (crate root of bld_runner,
source not provided): a non-blocking poll of the optional stop-signal
receiver; when a cancel token is observed the poll yields a cancellation
failure.  `σ` counts the polls made so far on this receiver. -/
def checkStopSignal (cm : Bool) (o : Oracle) (σ : Nat) : Trace × Nat × RRes :=
  if cm then
    ([.checkStop], σ + 1, if o.stop σ then .fail .cancelled else .ok)
  else ([], σ, .ok)

/-- Runner::persist_start / persist_end: the executor update is a real
store effect only for the real executor; EmptyExec does nothing. -/
def persistTrace (ex : ExecKind) (b : Bool) : Trace :=
  match ex with
  | .real => [.updateRunning b]
  | .empty => []

/-- Runner::info. -/
def Runner.infoTrace (r : Runner) : Trace :=
  (match r.pip.name with
    | some n => [.logPipName n]
    | none => []) ++ [.logRunsOn r.pip.runs_on]

/-- Runner::dispose (runner.rs lines 334-342): when the pipeline's dispose
flag is set, dispose the owned platform directly; note the absence of any
child-frame guard. -/
def Runner.dispose (r : Runner) (o : Oracle) : Trace × RRes :=
  if r.pip.dispose then
    match r.platform with
    | .machine m => m.dispose o
    | .container c => c.dispose o
  else ([], .ok)

/-- The can_continue test of Runner::artifacts. -/
def canContinue (tk : Tokens) (a : Artifact) : Bool :=
  (decide (a.method = some tk.PUSH) || decide (a.method = some tk.GET)) &&
    a.afrom.isSome && a.ato.isSome

/-- The dispatch match of Runner::artifacts on (platform, interpolated
method); a method string equal to neither PUSH nor GET hits the
unreachable! arm, which panics. -/
def copyDispatch (p : TargetPlatform) (o : Oracle) (tk : Tokens)
    (method f t : LC) : Trace × RRes :=
  match p with
  | .container c =>
    if method = tk.PUSH then c.copy_into o f t
    else if method = tk.GET then c.copy_from o f t
    else ([], .fail .panicked)
  | .machine m =>
    if method = tk.PUSH then m.copy_into o f t
    else if method = tk.GET then m.copy_from o f t
    else ([], .fail .panicked)

/-- The interpolated method of an artifact (let method of
Runner::artifacts). -/
def artMethod (tk : Tokens) (r : Runner) (a : Artifact) : LC :=
  applyContext tk r (a.method.getD [])

/-- The interpolated source of an artifact (let from of
Runner::artifacts). -/
def artFrom (tk : Tokens) (r : Runner) (a : Artifact) : LC :=
  applyContext tk r (a.afrom.getD [])

/-- The interpolated destination of an artifact (let to of
Runner::artifacts). -/
def artTo (tk : Tokens) (r : Runner) (a : Artifact) : LC :=
  applyContext tk r (a.ato.getD [])

/-- The dispatched copy of one artifact (let result of
Runner::artifacts). -/
def artDispatch (tk : Tokens) (r : Runner) (o : Oracle) (a : Artifact) :
    Trace × RRes :=
  copyDispatch r.platform o tk (artMethod tk r a) (artFrom tk r a)
    (artTo tk r a)

/-- Runner::artifacts: process every artifact whose after-anchor matches;
interpolate method/from/to, log, dispatch; a failure aborts unless
ignore_errors is set, in which case it is dropped silently. -/
def artifactsR (tk : Tokens) (r : Runner) (o : Oracle) (anchor : Option LC) :
    List Artifact → Trace × RRes
  | [] => ([], .ok)
  | a :: rest =>
    if a.after = anchor then
      if canContinue tk a then
        let d := artDispatch tk r o a
        match d.2 with
        | .fail .panicked =>
          (.logCopy (artFrom tk r a) (artTo tk r a) :: d.1, .fail .panicked)
        | .fail e =>
          if a.ignore_errors then
            let rec1 := artifactsR tk r o anchor rest
            (.logCopy (artFrom tk r a) (artTo tk r a) :: (d.1 ++ rec1.1),
              rec1.2)
          else (.logCopy (artFrom tk r a) (artTo tk r a) :: d.1, .fail e)
        | .ok =>
          let rec1 := artifactsR tk r o anchor rest
          (.logCopy (artFrom tk r a) (artTo tk r a) :: (d.1 ++ rec1.1),
            rec1.2)
      else artifactsR tk r o anchor rest
    else artifactsR tk r o anchor rest

/-- The interpolated working directory of a step (Runner::sh). -/
def shWd (tk : Tokens) (r : Runner) (s : BuildStep) : Option LC :=
  s.working_dir.map (applyContext tk r)

/-- The platform dispatch of one shell command (Runner::sh). -/
def shDispatch (tk : Tokens) (r : Runner) (o : Oracle) (s : BuildStep)
    (cmd : LC) : Trace × RRes :=
  match r.platform with
  | .container cont => cont.sh o (shWd tk r s) (applyContext tk r cmd) r.cm
  | .machine m => m.sh o (shWd tk r s) (applyContext tk r cmd)

/-- Runner::sh: interpolate working dir and command, dispatch to the
platform shell, poll the stop signal, continue with the next command. -/
def shR (tk : Tokens) (r : Runner) (o : Oracle) (s : BuildStep) (σ : Nat) :
    List LC → Trace × Nat × RRes
  | [] => ([], σ, .ok)
  | cmd :: rest =>
    let d := shDispatch tk r o s cmd
    match d.2 with
    | .fail e => (d.1, σ, .fail e)
    | .ok =>
      let k := checkStopSignal r.cm o σ
      match k.2.2 with
      | .fail e => (d.1 ++ k.1, k.2.1, .fail e)
      | .ok =>
        let rec1 := shR tk r o s k.2.1 rest
        (d.1 ++ k.1 ++ rec1.1, rec1.2.1, rec1.2.2)

/-- RunnerBuilder::build, given already-parsed pipelines through the proxy:
read and parse the pipeline, resolve environment and variables by
overlaying caller values on declared defaults, materialize the platform. -/
def buildRunner (prx : LC → Option Pipeline) (o : Oracle)
    (rid rst : LC) (ex : ExecKind) (cm : Bool)
    (cEnv cVars : LC → Option LC) (name : LC) : Except RErr Runner :=
  match prx name with
  | none => .error .buildFailed
  | some pip =>
    let env := collectHM (resolveDecls pip.environment cEnv)
    let vars := collectHM (resolveDecls pip.vars cVars)
    if o.platformInitOk pip.runs_on then
      .ok ⟨rid, rst, ex, prx, pip, cm, env, vars,
        match pip.runs_on with
        | .machine => .machine ⟨rid⟩
        | .docker img => .container ⟨img⟩⟩
    else .error .platformInitFailed

/-- The optional step-name log line of Runner::step. -/
def stepNameTrace (s : BuildStep) : Trace :=
  match s.name with
  | some n => [.logStep n]
  | none => []

/-- The child construction of Runner::call: same run id, start time, proxy
and receiver; the resolved parent environment and variables become the
caller-supplied values; the executor is EmptyExec. -/
def buildChild (r : Runner) (o : Oracle) (name : LC) : Except RErr Runner :=
  buildRunner r.prx o r.run_id r.run_start_time .empty r.cm
    (hmGet r.env) (hmGet r.vars) name

/-- The loop of Runner::call, parametric in the deferred child execution
`doCall` (building and awaiting one child runner): run each child, then
poll the stop signal; a failure aborts the rest of the call list. -/
def callRP (doCall : LC → Nat → Trace × Nat × RRes) (cm : Bool) (o : Oracle)
    (σ : Nat) : List LC → Trace × Nat × RRes
  | [] => ([], σ, .ok)
  | name :: rest =>
    let x := doCall name σ
    match x.2.2 with
    | .fail e => (x.1, x.2.1, .fail e)
    | .ok =>
      let k := checkStopSignal cm o x.2.1
      match k.2.2 with
      | .fail e => (x.1 ++ k.1, k.2.1, .fail e)
      | .ok =>
        let y := callRP doCall cm o k.2.1 rest
        (x.1 ++ k.1 ++ y.1, y.2.1, y.2.2)

/-- Runner::step, parametric in the deferred child execution: log the step
name, run the call list, then the shell commands. -/
def stepRP (tk : Tokens) (doCall : LC → Nat → Trace × Nat × RRes)
    (r : Runner) (o : Oracle) (σ : Nat) (s : BuildStep) :
    Trace × Nat × RRes :=
  let tn : Trace := stepNameTrace s
  let c := callRP doCall r.cm o σ s.call
  match c.2.2 with
  | .fail e => (tn ++ c.1, c.2.1, .fail e)
  | .ok =>
    let h := shR tk r o s c.2.1 s.commands
    (tn ++ c.1 ++ h.1, h.2.1, h.2.2)

/-- Runner::steps, parametric in the deferred child execution: per step in
order run the step, its post-step artifacts, then poll the stop signal;
any failure aborts the remaining steps. -/
def stepsRP (tk : Tokens) (doCall : LC → Nat → Trace × Nat × RRes)
    (r : Runner) (o : Oracle) (σ : Nat) :
    List BuildStep → Trace × Nat × RRes
  | [] => ([], σ, .ok)
  | s :: rest =>
    let x := stepRP tk doCall r o σ s
    match x.2.2 with
    | .fail e => (x.1, x.2.1, .fail e)
    | .ok =>
      let a := artifactsR tk r o s.name r.pip.artifacts
      match a.2 with
      | .fail e => (x.1 ++ a.1, x.2.1, .fail e)
      | .ok =>
        let k := checkStopSignal r.cm o x.2.1
        match k.2.2 with
        | .fail e => (x.1 ++ a.1 ++ k.1, k.2.1, .fail e)
        | .ok =>
          let y := stepsRP tk doCall r o k.2.1 rest
          (x.1 ++ a.1 ++ k.1 ++ y.1, y.2.1, y.2.2)

/-- Runner::run, parametric in the deferred child execution: persist_start,
info, pre-steps artifacts (an error logs and skips the steps), steps (an
error is logged), persist_end, dispose; the dispose result is the result
of the whole run.  A panic aborts everything. -/
def runBodyP (tk : Tokens) (doCall : LC → Nat → Trace × Nat × RRes)
    (r : Runner) (o : Oracle) (σ : Nat) : Trace × Nat × RRes :=
  let t0 := persistTrace r.ex true ++ r.infoTrace
  let a := artifactsR tk r o none r.pip.artifacts
  match a.2 with
  | .fail .panicked => (t0 ++ a.1, σ, .fail .panicked)
  | .fail e =>
    let d := Runner.dispose r o
    (t0 ++ a.1 ++ [.logErr e] ++ persistTrace r.ex false ++ d.1, σ, d.2)
  | .ok =>
    let s := stepsRP tk doCall r o σ r.pip.steps
    match s.2.2 with
    | .fail .panicked => (t0 ++ a.1 ++ s.1, s.2.1, .fail .panicked)
    | .fail e =>
      let d := Runner.dispose r o
      (t0 ++ a.1 ++ s.1 ++ [.logErr e] ++ persistTrace r.ex false ++ d.1,
        s.2.1, d.2)
    | .ok =>
      let d := Runner.dispose r o
      (t0 ++ a.1 ++ s.1 ++ persistTrace r.ex false ++ d.1, s.2.1, d.2)

/-- Runner::run, closed by fuel over the recursive child invocations of
Runner::call (`runner.run().await.await` after RunnerBuilder::build); the
fuel bounds the child-runner nesting depth of the embedding. -/
def runR (tk : Tokens) : Nat → Runner → Oracle → Nat → Trace × Nat × RRes
  | 0, r, o, σ =>
    runBodyP tk (fun _ σ2 => ([], σ2, .fail .outOfFuel)) r o σ
  | fuel + 1, r, o, σ =>
    runBodyP tk (fun name σ2 =>
      match buildChild r o name with
      | .error e => ([], σ2, .fail e)
      | .ok child => runR tk fuel child o σ2) r o σ

/-- The deferred child execution available at a given fuel: at fuel zero
the embedding gives up; otherwise build the child Runner (propagating
build failures) and run it at the smaller fuel. -/
def doCallAt (tk : Tokens) (fuel : Nat) (r : Runner) (o : Oracle) :
    LC → Nat → Trace × Nat × RRes :=
  match fuel with
  | 0 => fun _ σ2 => ([], σ2, .fail .outOfFuel)
  | fuel1 + 1 => fun name σ2 =>
    match buildChild r o name with
    | .error e => ([], σ2, .fail e)
    | .ok child => runR tk fuel1 child o σ2

/-- Runner::call at a given fuel. -/
def callR (tk : Tokens) (fuel : Nat) (r : Runner) (o : Oracle) (σ : Nat)
    (calls : List LC) : Trace × Nat × RRes :=
  callRP (doCallAt tk fuel r o) r.cm o σ calls

/-- Runner::step at a given fuel. -/
def stepR (tk : Tokens) (fuel : Nat) (r : Runner) (o : Oracle) (σ : Nat)
    (s : BuildStep) : Trace × Nat × RRes :=
  stepRP tk (doCallAt tk fuel r o) r o σ s

/-- Runner::steps at a given fuel. -/
def stepsR (tk : Tokens) (fuel : Nat) (r : Runner) (o : Oracle) (σ : Nat)
    (steps : List BuildStep) : Trace × Nat × RRes :=
  stepsRP tk (doCallAt tk fuel r o) r o σ steps

/- ### Helper predicates on traces and further definitions -/

/-- Is the event an executor-state update (persist_start / persist_end)? -/
def isPersistEvent : Event → Bool
  | .updateRunning _ => true
  | _ => false

/-- Is the event a platform-disposal effect? -/
def isDisposeEvent : Event → Bool
  | .removeTempDir _ => true
  | .removeContainer _ => true
  | _ => false

/-- The trace contains no executor-state updates. -/
def noPersist (t : Trace) : Bool := t.all (fun e => !isPersistEvent e)

/- ### Concrete instances used by witnesses and counterexamples -/

/-- A concrete choice of token constants whose token texts share the
reserved leading character, for witnesses. -/
def tkW : Tokens :=
  ⟨"$env:".data, "$var:".data, "$id".data, "$start".data,
    "push".data, "get".data⟩

/-- A small machine pipeline declaring one environment entry and one
variable. -/
def pipW : Pipeline :=
  { name := some ("demo".data)
    runs_on := .machine
    environment := [⟨"A".data, "x".data⟩]
    vars := [⟨"V".data, "y".data⟩]
    artifacts := []
    steps := []
    dispose := true }

/-- A concrete runner over `pipW` with a caller-overridden environment
value. -/
def runnerW : Runner :=
  { run_id := "rid".data
    run_start_time := "rst".data
    ex := .real
    prx := fun _ => none
    pip := pipW
    cm := true
    env := [("A".data, "va".data)]
    vars := [("V".data, "y".data)]
    platform := .machine ⟨"rid".data⟩ }

/-- A token-piece decomposition of a command string for the interpolation
witness; it contains resolved tokens, raw text, and the unresolved token
for the name UNSET. -/
def piecesW : List LC :=
  ["echo ".data, "$env:A".data, " and ".data, "$var:V".data,
    "$id".data, " then ".data, "$env:UNSET".data, " tail".data]

/-- The unrecognized token texts occurring in `piecesW`: the env token for
the undeclared, unresolved name UNSET. -/
def toksW : List LC := ["$env:UNSET".data]

/-- Token constants for the interpolation counterexample (the concrete
spellings are irrelevant; only the prefix shape matters). -/
def tkC6 : Tokens :=
  ⟨"env:".data, "var:".data, "rid:".data, "rst:".data,
    "push".data, "get".data⟩

/-- Pipeline for the interpolation counterexample: one declared environment
name A. -/
def pipC6 : Pipeline :=
  { name := none
    runs_on := .machine
    environment := [⟨"A".data, "x".data⟩]
    vars := []
    artifacts := []
    steps := []
    dispose := false }

/-- Runner for the interpolation counterexample. -/
def rC6 : Runner :=
  ⟨"i".data, "t".data, .real, fun _ => none, pipC6, false,
    [("A".data, "x".data)], [], .machine ⟨"i".data⟩⟩

/-- Caller-supplied environment for the build witness: overrides A, also
supplies an undeclared name Z. -/
def cEnvW : LC → Option LC := fun n =>
  if n = "A".data then some ("va".data)
  else if n = "Z".data then some ("zz".data)
  else none

/-- Caller-supplied variables for the build witness: nothing supplied. -/
def cVarsW : LC → Option LC := fun _ => none

/-- An oracle under which every effect succeeds and no stop token ever
arrives. -/
def oW : Oracle :=
  ⟨fun _ _ _ => true, fun _ _ => true, fun _ => false, fun _ => true, true,
    fun _ => true⟩

/-- A proxy resolving the single pipeline name p. -/
def prxW : LC → Option Pipeline := fun n =>
  if n = "p".data then some pipW else none

/-- The runner that `buildRunner` produces from `prxW`, `cEnvW`, `cVarsW`
on the name p. -/
def rBuilt : Runner :=
  { run_id := "rid".data
    run_start_time := "rst".data
    ex := .real
    prx := prxW
    pip := pipW
    cm := true
    env := [("A".data, "va".data)]
    vars := [("V".data, "y".data)]
    platform := .machine ⟨"rid".data⟩ }

/- ### Supervisor IPC reader (bld_supervisor/src/client/server.rs) -/

/-- Modelled from the spec: the supervisor IPC message union (crate base
module, source not provided); the reader handles ServerEnqueue and ignores
the other kinds. -/
inductive UnixSocketMessage
  | serverEnqueue (pipeline run_id : LC) (vars env : Option LC)
  | workerAck (run_id : LC)
  | monitor
deriving DecidableEq

/-- Modelled from the spec: a queued worker descriptor
(bld_core::workers::PipelineWorker, source not provided): the executable
and argument list of the command it will spawn. -/
structure PipelineWorker where
  exe : LC
  args : List LC
deriving DecidableEq

/-- The argument list built by UnixSocketServerReader::handle for a
ServerEnqueue message, in the order of the command.arg calls. -/
def workerCmdArgs (pipeline run_id : LC) (vars env : Option LC) :
    List LC :=
  ["worker".data, "--pipeline".data, pipeline, "--run-id".data, run_id]
    ++ (match vars with
      | some v => ["--variables".data, v]
      | none => [])
    ++ (match env with
      | some e => ["--environment".data, e]
      | none => [])

/-- UnixSocketServerReader::handle, one message at a time: for a
ServerEnqueue resolve the current executable (`exeAt i` gives the result of
current_exe() at the i-th message; a failure aborts only that message),
build the worker and append it to the queue; other messages are ignored. -/
def handleGo (exeAt : Nat → Option LC) (i : Nat)
    (queue : List PipelineWorker) :
    List UnixSocketMessage → List PipelineWorker
  | [] => queue
  | .serverEnqueue p rid v e :: rest =>
    match exeAt i with
    | none => handleGo exeAt (i + 1) queue rest
    | some exe =>
      handleGo exeAt (i + 1) (queue ++ [⟨exe, workerCmdArgs p rid v e⟩]) rest
  | _ :: rest => handleGo exeAt (i + 1) queue rest

/-- UnixSocketServerReader::handle over a received message batch. -/
def handle (exeAt : Nat → Option LC) (msgs : List UnixSocketMessage)
    (queue : List PipelineWorker) : List PipelineWorker :=
  handleGo exeAt 0 queue msgs

/-- An executable resolver that fails on the first message and succeeds
afterwards. -/
def exeAtW : Nat → Option LC := fun i =>
  if i = 0 then none else some ("/bld".data)

/-- An all-succeeding oracle whose stop stream always carries a token. -/
def oStop : Oracle :=
  ⟨fun _ _ _ => true, fun _ _ => true, fun _ => true, fun _ => true, true,
    fun _ => true⟩

/-- An all-succeeding oracle delivering the cancel token at the second
poll only. -/
def oStopAt1 : Oracle :=
  ⟨fun _ _ _ => true, fun _ _ => true, fun n => decide (n = 1),
    fun _ => true, true, fun _ => true⟩

/-- An oracle under which platform disposal fails (everything else
succeeds). -/
def oDisposeFail : Oracle :=
  ⟨fun _ _ _ => true, fun _ _ => true, fun _ => false, fun _ => false, false,
    fun _ => true⟩

/-- An oracle under which every artifact copy fails. -/
def oCopyFail : Oracle :=
  ⟨fun _ _ _ => false, fun _ _ => true, fun _ => false, fun _ => true, true,
    fun _ => true⟩

/-- An oracle under which exactly the shell command boom fails. -/
def oC3 : Oracle :=
  ⟨fun _ _ _ => true, fun _ c => !(decide (c = "boom".data)), fun _ => false,
    fun _ => true, true, fun _ => true⟩

/-- A step that runs the failing command boom. -/
def sBoom : BuildStep := ⟨none, none, [], ["boom".data]⟩

/-- A step that runs the succeeding command after. -/
def sAfter : BuildStep := ⟨none, none, [], ["after".data]⟩

/-- A child pipeline with one failing command. -/
def childPip : Pipeline :=
  { name := none
    runs_on := .machine
    environment := []
    vars := []
    artifacts := []
    steps := [sBoom]
    dispose := false }

/-- A parent pipeline: first step calls the child, second step runs a
command of its own. -/
def parentPip : Pipeline :=
  { name := none
    runs_on := .machine
    environment := []
    vars := []
    artifacts := []
    steps := [⟨none, none, ["child".data], []⟩, sAfter]
    dispose := false }

/-- A proxy resolving the child pipeline name. -/
def prxC3 : LC → Option Pipeline := fun n =>
  if n = "child".data then some childPip else none

/-- The parent runner over `parentPip`. -/
def rC3 : Runner :=
  { run_id := "rid".data
    run_start_time := "rst".data
    ex := .real
    prx := prxC3
    pip := parentPip
    cm := true
    env := []
    vars := []
    platform := .machine ⟨"rid".data⟩ }

/-- A child pipeline with no steps whose dispose flag is set. -/
def childPipD : Pipeline :=
  { name := none
    runs_on := .machine
    environment := []
    vars := []
    artifacts := []
    steps := []
    dispose := true }

/-- A proxy resolving the disposing child pipeline. -/
def prxC3b : LC → Option Pipeline := fun n =>
  if n = "childd".data then some childPipD else none

/-- A parent runner whose proxy resolves the disposing child. -/
def rC3b : Runner :=
  { run_id := "rid".data
    run_start_time := "rst".data
    ex := .real
    prx := prxC3b
    pip := parentPip
    cm := true
    env := []
    vars := []
    platform := .machine ⟨"rid".data⟩ }

/-- The child runner that `buildChild` produces from `rC3b` on the name
childd. -/
def rChildD : Runner :=
  { run_id := "rid".data
    run_start_time := "rst".data
    ex := .empty
    prx := prxC3b
    pip := childPipD
    cm := true
    env := []
    vars := []
    platform := .machine ⟨"rid".data⟩ }

/-- A container parent pipeline whose dispose flag is clear and whose only
step calls the disposing machine child. -/
def parentPipC2 : Pipeline :=
  { name := none
    runs_on := .docker ("img".data)
    environment := []
    vars := []
    artifacts := []
    steps := [⟨none, none, ["childd".data], []⟩]
    dispose := false }

/-- The container root runner for the disposal scenario. -/
def rC2 : Runner :=
  { run_id := "rid".data
    run_start_time := "rst".data
    ex := .real
    prx := prxC3b
    pip := parentPipC2
    cm := true
    env := []
    vars := []
    platform := .container ⟨"img".data⟩ }

/-- A complete matching artifact with ignore_errors set. -/
def artIg : Artifact :=
  { method := some ("push".data)
    afrom := some ("/a".data)
    ato := some ("/b".data)
    after := none
    ignore_errors := true }

/- DEFS-END -/

/- ### String-replacement lemmas -/

theorem replaceAllGo_fuel (pat rep : LC) :
    ∀ n s, s.length ≤ n →
      replaceAllGo pat rep n s = replaceAllGo pat rep s.length s := by
  intro n
  induction n using Nat.strong_induction_on with
  | _ n ih =>
    intro s hs
    cases s with
    | nil => cases n <;> rfl
    | cons c cs =>
      cases n with
      | zero => simp at hs
      | succ m =>
        show replaceAllGo pat rep (m+1) (c :: cs)
            = replaceAllGo pat rep (cs.length + 1) (c :: cs)
        rw [replaceAllGo, replaceAllGo]
        by_cases h : pat ≠ [] ∧ pat <+: (c :: cs)
        · rw [if_pos h, if_pos h]
          have hd : (List.drop (pat.length - 1) cs).length ≤ cs.length := by
            simp [List.length_drop]
          have hm : cs.length ≤ m := by simpa using hs
          rw [ih m (by omega) _ (le_trans hd hm),
            ih cs.length (by omega) _ hd]
        · rw [if_neg h, if_neg h]
          have hm : cs.length ≤ m := by simpa using hs
          rw [ih m (by omega) cs hm]

theorem replaceAll_nil (pat rep : LC) : replaceAll pat rep [] = [] := rfl

theorem replaceAll_cons_pos (pat rep : LC) (c : Char) (cs : LC)
    (h1 : pat ≠ []) (h2 : pat <+: (c :: cs)) :
    replaceAll pat rep (c :: cs)
      = rep ++ replaceAll pat rep (List.drop (pat.length - 1) cs) := by
  show replaceAllGo pat rep (cs.length + 1) (c :: cs) = _
  rw [replaceAllGo, if_pos ⟨h1, h2⟩, replaceAll]
  have hd : (List.drop (pat.length - 1) cs).length ≤ cs.length := by
    simp [List.length_drop]
  rw [replaceAllGo_fuel pat rep cs.length _ hd]

theorem replaceAll_cons_neg (pat rep : LC) (c : Char) (cs : LC)
    (h : ¬ (pat ≠ [] ∧ pat <+: (c :: cs))) :
    replaceAll pat rep (c :: cs) = c :: replaceAll pat rep cs := by
  show replaceAllGo pat rep (cs.length + 1) (c :: cs) = _
  rw [replaceAllGo, if_neg h, replaceAll]

theorem replaceAll_of_not_contains (pat rep : LC) :
    ∀ s, containsSub pat s = false → replaceAll pat rep s = s := by
  intro s
  induction s with
  | nil => intro _; rfl
  | cons c cs ih =>
    intro h
    rw [containsSub] at h
    simp only [Bool.or_eq_false_iff, decide_eq_false_iff_not] at h
    rw [replaceAll_cons_neg pat rep c cs (by tauto), ih h.2]

theorem replaceAll_append_pat (pat rep t : LC) (h : pat ≠ []) :
    replaceAll pat rep (pat ++ t) = rep ++ replaceAll pat rep t := by
  cases pat with
  | nil => exact absurd rfl h
  | cons p ps =>
    rw [List.cons_append,
      replaceAll_cons_pos _ rep p (ps ++ t) h ⟨t, by simp⟩]
    congr 1
    have : (p :: ps).length - 1 = ps.length := by simp
    rw [this, List.drop_left]

theorem replaceAll_skip (pat rep : LC) :
    ∀ c rest, (∀ b, b ≠ [] → b <:+ c → ¬ pat <+: (b ++ rest)) →
      replaceAll pat rep (c ++ rest) = c ++ replaceAll pat rep rest := by
  intro c
  induction c with
  | nil => intro rest _; rfl
  | cons x xs ih =>
    intro rest h
    rw [List.cons_append, replaceAll_cons_neg]
    · rw [ih rest (fun b hb hbs => h b hb (hbs.trans (List.suffix_cons x xs)))]
      simp
    · rintro ⟨-, hpre⟩
      exact h (x :: xs) (by simp) List.suffix_rfl (by simpa using hpre)

theorem prefix_split {p q t : LC} (h : p <+: (q ++ t)) :
    p <+: q ∨ q <+: p := by
  induction q generalizing p with
  | nil => exact Or.inr List.nil_prefix
  | cons a q ih =>
    cases p with
    | nil => exact Or.inl List.nil_prefix
    | cons b p =>
      obtain ⟨u, hu⟩ := h
      simp only [List.cons_append, List.cons.injEq] at hu
      obtain ⟨rfl, hu2⟩ := hu
      rcases ih ⟨u, hu2⟩ with hc | hc
      · exact Or.inl (List.cons_prefix_cons.mpr ⟨rfl, hc⟩)
      · exact Or.inr (List.cons_prefix_cons.mpr ⟨rfl, hc⟩)

theorem cons_prefix_head {a : Char} {l s : LC} (h : (a :: l) <+: s) :
    ∃ s2, s = a :: s2 := by
  obtain ⟨u, hu⟩ := h
  exact ⟨l ++ u, hu.symm⟩

theorem headedBy_elim {g : Char} {q : LC} (h : headedBy g q = true) :
    ∃ tail, q = g :: tail ∧ g ∉ tail := by
  cases q with
  | nil => simp [headedBy] at h
  | cons c cs =>
    simp only [headedBy, gfree, Bool.and_eq_true, decide_eq_true_eq] at h
    exact ⟨cs, by rw [h.1], h.2⟩

theorem gfree_not_cons {g : Char} {x t : LC} (hx : gfree g x = true) :
    x ≠ g :: t := by
  intro hcon
  rw [gfree, decide_eq_true_eq] at hx
  exact hx (hcon ▸ List.mem_cons_self g t)

theorem replaceAll_joinAll (g : Char) (p v : LC) (pats : List LC)
    (hpP : p ∈ pats)
    (hheads : ∀ q ∈ pats, headedBy g q = true)
    (hinc : ∀ q1 ∈ pats, ∀ q2 ∈ pats, q1 <+: q2 → q1 = q2) :
    ∀ pieces, (∀ c ∈ pieces, c ∈ pats ∨ gfree g c = true) →
      replaceAll p v (joinAll pieces)
        = joinAll (pieces.map (fun c => if c = p then v else c)) := by
  obtain ⟨ptail, hps, hpg⟩ := headedBy_elim (hheads p hpP)
  have hpne : p ≠ [] := by rw [hps]; simp
  intro pieces
  induction pieces with
  | nil => intro _; simp [joinAll, replaceAll_nil]
  | cons c rest ih =>
    intro hcs
    have hc := hcs c (by simp)
    have hrest : ∀ x ∈ rest, x ∈ pats ∨ gfree g x = true :=
      fun x hx => hcs x (by simp [hx])
    show replaceAll p v (c ++ joinAll rest) = _
    by_cases hcp : c = p
    · subst hcp
      rw [replaceAll_append_pat c v _ hpne, ih hrest]
      simp [joinAll]
    · have hside : ∀ b, b ≠ [] → b <:+ c → ¬ p <+: (b ++ joinAll rest) := by
        intro b hb hbs hpre
        obtain ⟨b0, b1, rfl⟩ : ∃ b0 b1, b = b0 :: b1 := by
          cases b with
          | nil => exact absurd rfl hb
          | cons b0 b1 => exact ⟨b0, b1, rfl⟩
        have hb0g : g = b0 := by
          rw [hps] at hpre
          obtain ⟨s2, hs2⟩ := cons_prefix_head hpre
          rw [List.cons_append] at hs2
          injection hs2 with h1 h2
          exact h1.symm
        subst hb0g
        rcases hc with hcpat | hcfree
        · obtain ⟨ctail, hcs2, hcg⟩ := headedBy_elim (hheads c hcpat)
          rcases List.suffix_cons_iff.mp (hcs2 ▸ hbs) with heq | htail
          · rw [← hcs2] at heq
            rcases prefix_split hpre with hl | hl
            · exact hcp ((hinc p hpP c hcpat (heq ▸ hl)).symm)
            · exact hcp (hinc c hcpat p hpP (heq ▸ hl))
          · exact hcg (htail.subset (List.mem_cons_self g b1))
        · rw [gfree, decide_eq_true_eq] at hcfree
          exact hcfree (hbs.subset (List.mem_cons_self g b1))
      rw [replaceAll_skip p v c (joinAll rest) hside, ih hrest]
      simp [joinAll, hcp]

theorem substPiece_nil (c : LC) : substPiece [] c = c := rfl

theorem substPiece_cons_eq (pv : LC × LC) (pvs : List (LC × LC)) (c : LC)
    (h : c = pv.1) : substPiece (pv :: pvs) c = pv.2 := by
  show (if pv.1 = c then pv.2 else substPiece pvs c) = pv.2
  rw [if_pos h.symm]

theorem substPiece_cons_ne (pv : LC × LC) (pvs : List (LC × LC)) (c : LC)
    (h : c ≠ pv.1) : substPiece (pv :: pvs) c = substPiece pvs c := by
  show (if pv.1 = c then pv.2 else substPiece pvs c) = substPiece pvs c
  rw [if_neg (fun h2 => h h2.symm)]

theorem substPiece_gfree (g : Char) (pats : List LC) :
    ∀ pvs : List (LC × LC), (∀ pv ∈ pvs, pv.1 ∈ pats) →
    (∀ q ∈ pats, headedBy g q = true) →
    ∀ x : LC, gfree g x = true → substPiece pvs x = x := by
  intro pvs
  induction pvs with
  | nil => intro _ _ x _; rfl
  | cons pv rest ih =>
    intro hin hheads x hx
    have hne : x ≠ pv.1 := by
      obtain ⟨t, ht, -⟩ := headedBy_elim (hheads pv.1 (hin pv (by simp)))
      intro hcon
      exact gfree_not_cons hx (hcon ▸ ht)
    rw [substPiece_cons_ne pv rest x hne]
    exact ih (fun q hq => hin q (by simp [hq])) hheads x hx

theorem foldReplace_joinAll (g : Char) (pats : List LC)
    (hheads : ∀ q ∈ pats, headedBy g q = true)
    (hinc : ∀ q1 ∈ pats, ∀ q2 ∈ pats, q1 <+: q2 → q1 = q2) :
    ∀ pvs, (∀ pv ∈ pvs, pv.1 ∈ pats) → (∀ pv ∈ pvs, gfree g pv.2 = true) →
    ∀ pieces, (∀ c ∈ pieces, c ∈ pats ∨ gfree g c = true) →
      foldReplace pvs (joinAll pieces)
        = joinAll (pieces.map (substPiece pvs)) := by
  intro pvs
  induction pvs with
  | nil =>
    intro _ _ pieces _
    have hmap : pieces.map (substPiece []) = pieces := by
      rw [show substPiece [] = id from funext substPiece_nil, List.map_id]
    rw [hmap]
    rfl
  | cons pv pvs ih =>
    intro hin hval pieces hcs
    have h1 : foldReplace (pv :: pvs) (joinAll pieces)
        = foldReplace pvs (replaceAll pv.1 pv.2 (joinAll pieces)) := rfl
    rw [h1, replaceAll_joinAll g pv.1 pv.2 pats (hin pv (by simp))
      hheads hinc pieces hcs]
    have hnewinv : ∀ x ∈ pieces.map (fun c => if c = pv.1 then pv.2 else c),
        x ∈ pats ∨ gfree g x = true := by
      intro x hx
      rw [List.mem_map] at hx
      obtain ⟨c, hcmem, rfl⟩ := hx
      by_cases hcp : c = pv.1
      · simp only [hcp, if_pos rfl]
        exact Or.inr (hval pv (by simp))
      · simpa [hcp] using hcs c hcmem
    rw [ih (fun q hq => hin q (by simp [hq])) (fun q hq => hval q (by simp [hq]))
      _ hnewinv, List.map_map]
    congr 1
    apply List.map_congr_left
    intro c hcmem
    show substPiece pvs (if c = pv.1 then pv.2 else c) = substPiece (pv :: pvs) c
    by_cases hcp : c = pv.1
    · rw [if_pos hcp,
        substPiece_gfree g pats pvs (fun q hq => hin q (by simp [hq])) hheads
          pv.2 (hval pv (by simp)),
        substPiece_cons_eq pv pvs c hcp]
    · rw [if_neg hcp, substPiece_cons_ne pv pvs c hcp]

theorem substPiece_not_mem : ∀ pvs : List (LC × LC), ∀ c : LC,
    c ∉ pvs.map Prod.fst → substPiece pvs c = c := by
  intro pvs
  induction pvs with
  | nil => intro c _; rfl
  | cons pv rest ih =>
    intro c h
    rw [List.map_cons, List.mem_cons] at h
    push_neg at h
    rw [substPiece_cons_ne pv rest c h.1]
    exact ih c h.2

/- ### The interpolation passes as one pattern list -/

theorem foldReplace_append (l1 l2 : List (LC × LC)) (s : LC) :
    foldReplace (l1 ++ l2) s = foldReplace l2 (foldReplace l1 s) := by
  simp [foldReplace, List.foldl_append]

theorem applyRunProperties_eq (tk : Tokens) (r : Runner) (txt : LC) :
    applyRunProperties tk r txt = foldReplace (propPairs tk r) txt := rfl

theorem applyEnvironment_eq (tk : Tokens) (r : Runner) (txt : LC) :
    applyEnvironment tk r txt = foldReplace (envPairs tk r) txt := by
  rw [envPairs, foldReplace_append]
  simp [foldReplace, applyEnvironment, List.foldl_map]

theorem applyVariables_eq (tk : Tokens) (r : Runner) (txt : LC) :
    applyVariables tk r txt = foldReplace (varPairs tk r) txt := by
  rw [varPairs, foldReplace_append]
  simp [foldReplace, applyVariables, List.foldl_map]

theorem applyContext_eq (tk : Tokens) (r : Runner) (txt : LC) :
    applyContext tk r txt = foldReplace (ctxPairs tk r) txt := by
  rw [ctxPairs, foldReplace_append, foldReplace_append, applyContext,
    applyRunProperties_eq, applyEnvironment_eq, applyVariables_eq]

theorem foldReplace_of_not_contains :
    ∀ pvs : List (LC × LC), ∀ s : LC,
      (∀ pv ∈ pvs, containsSub pv.1 s = false) → foldReplace pvs s = s := by
  intro pvs
  induction pvs with
  | nil => intro s _; rfl
  | cons pv rest ih =>
    intro s h
    show foldReplace rest (replaceAll pv.1 pv.2 s) = s
    rw [replaceAll_of_not_contains pv.1 pv.2 s (h pv (by simp))]
    exact ih s (fun q hq => h q (by simp [hq]))

/-- C7: interpolating a string that contains no run-properties token, no
environment token for any resolved or declared environment name, and no
variable token for any resolved or declared variable name is a fixed
point of apply_context. -/
theorem C7_no_token_fixed_point (tk : Tokens) (r : Runner) (s : LC)
    (h : ∀ pv ∈ ctxPairs tk r, containsSub pv.1 s = false) :
    applyContext tk r s = s := by
  rw [applyContext_eq]
  exact foldReplace_of_not_contains (ctxPairs tk r) s h

/-- Witness for C7 at a concrete runner and token-free string. -/
theorem C7_no_token_fixed_point_witness :
    applyContext tkW runnerW ("echo hello".data) = "echo hello".data :=
  C7_no_token_fixed_point tkW runnerW ("echo hello".data) (by decide)

/-- C6 (amended): consider an input decomposing into pieces, each either a
whole token text — recognized (a run-property token, or the env/var prefix
plus a resolved or declared name) or unrecognized (an element of `toks`,
covering the unresolved tokens) — or plain text free of the reserved
character `g`.  Provided every token text, recognized or not, begins with
`g` and mentions it nowhere else, no token text in the combined set is a
proper prefix of another, and substituted values do not mention `g`, then
apply_context replaces exactly the pieces equal to a recognized token
text — each by the value of its first pairing, resolved values taking
precedence over declared defaults — and every other piece, including
every unresolved token, appears verbatim in the output. -/
theorem C6_interpolation (tk : Tokens) (r : Runner) (g : Char)
    (toks : List LC) (pieces : List LC)
    (hheads : ∀ pv ∈ ctxPairs tk r, headedBy g pv.1 = true)
    (htoks : ∀ t ∈ toks, headedBy g t = true)
    (hvals : ∀ pv ∈ ctxPairs tk r, gfree g pv.2 = true)
    (hinc : ∀ p ∈ (ctxPairs tk r).map Prod.fst ++ toks,
      ∀ q ∈ (ctxPairs tk r).map Prod.fst ++ toks, p <+: q → p = q)
    (hpieces : ∀ c ∈ pieces,
      c ∈ (ctxPairs tk r).map Prod.fst ++ toks ∨ gfree g c = true) :
    applyContext tk r (joinAll pieces)
      = joinAll (pieces.map (substPiece (ctxPairs tk r)))
    ∧ (∀ c ∈ pieces, c ∉ (ctxPairs tk r).map Prod.fst
        → substPiece (ctxPairs tk r) c = c) := by
  constructor
  · rw [applyContext_eq]
    refine foldReplace_joinAll g ((ctxPairs tk r).map Prod.fst ++ toks) ?_
      hinc (ctxPairs tk r)
      (fun pv hpv => List.mem_append_left _ (List.mem_map_of_mem Prod.fst hpv))
      hvals pieces hpieces
    intro q hq
    rcases List.mem_append.mp hq with hq | hq
    · rw [List.mem_map] at hq
      obtain ⟨pv, hpv, rfl⟩ := hq
      exact hheads pv hpv
    · exact htoks q hq
  · intro c _ hc
    exact substPiece_not_mem (ctxPairs tk r) c hc

/-- Witness for the amended C6 at a concrete runner, token set and pieced
input: the resolved tokens are substituted, while the unresolved token for
the name UNSET is left untouched and appears verbatim in the output. -/
theorem C6_interpolation_witness :
    applyContext tkW runnerW (joinAll piecesW)
      = joinAll (piecesW.map (substPiece (ctxPairs tkW runnerW)))
    ∧ substPiece (ctxPairs tkW runnerW) ("$env:UNSET".data)
        = "$env:UNSET".data
    ∧ containsSub ("$env:UNSET".data)
        (applyContext tkW runnerW (joinAll piecesW)) = true := by
  have h := C6_interpolation tkW runnerW (Char.ofNat 36) toksW piecesW
    (by decide) (by decide) (by decide) (by decide) (by decide)
  exact ⟨h.1, h.2 ("$env:UNSET".data) (by decide) (by decide), by decide⟩

/- ### Supervisor enqueue handling -/

theorem handleGo_queue_append (exeAt : Nat → Option LC) :
    ∀ msgs : List UnixSocketMessage, ∀ i : Nat, ∀ q : List PipelineWorker,
      handleGo exeAt i q msgs = q ++ handleGo exeAt i [] msgs := by
  intro msgs
  induction msgs with
  | nil => intro i q; simp [handleGo]
  | cons m rest ih =>
    intro i q
    cases m with
    | serverEnqueue p rid v e =>
      cases hx : exeAt i with
      | none =>
        simp only [handleGo, hx]
        exact ih (i+1) q
      | some x =>
        simp only [handleGo, hx]
        have h1 := ih (i+1) (q ++ [PipelineWorker.mk x (workerCmdArgs p rid v e)])
        have h2 := ih (i+1) ([] ++ [PipelineWorker.mk x (workerCmdArgs p rid v e)])
        rw [h1, h2]
        simp
    | workerAck rid =>
      show handleGo exeAt (i+1) q rest = q ++ handleGo exeAt (i+1) [] rest
      exact ih (i+1) q
    | monitor =>
      show handleGo exeAt (i+1) q rest = q ++ handleGo exeAt (i+1) [] rest
      exact ih (i+1) q

/-- C9: the supervisor reader only appends to the queue; a ServerEnqueue
whose executable resolution fails is skipped while the remaining messages
are still processed; a resolvable ServerEnqueue appends one worker whose
command line is the resolved executable with subcommand worker, the
mandatory pipeline and run-id flags, and the optional variables and
environment flags exactly when those payload fields are present;
non-enqueue messages leave the queue unchanged. -/
theorem C9_supervisor_enqueue :
    (∀ exeAt : Nat → Option LC, ∀ i q msgs,
      handleGo exeAt i q msgs = q ++ handleGo exeAt i [] msgs)
    ∧ (∀ exeAt : Nat → Option LC, ∀ i p rid v e rest, exeAt i = none →
      handleGo exeAt i [] (.serverEnqueue p rid v e :: rest)
        = handleGo exeAt (i + 1) [] rest)
    ∧ (∀ exeAt : Nat → Option LC, ∀ i p rid v e rest x, exeAt i = some x →
      handleGo exeAt i [] (.serverEnqueue p rid v e :: rest)
        = ⟨x, workerCmdArgs p rid v e⟩ :: handleGo exeAt (i + 1) [] rest)
    ∧ (∀ p rid v e,
      workerCmdArgs p rid (some v) (some e)
        = ["worker".data, "--pipeline".data, p, "--run-id".data, rid,
            "--variables".data, v, "--environment".data, e]
      ∧ workerCmdArgs p rid (some v) none
        = ["worker".data, "--pipeline".data, p, "--run-id".data, rid,
            "--variables".data, v]
      ∧ workerCmdArgs p rid none (some e)
        = ["worker".data, "--pipeline".data, p, "--run-id".data, rid,
            "--environment".data, e]
      ∧ workerCmdArgs p rid none none
        = ["worker".data, "--pipeline".data, p, "--run-id".data, rid])
    ∧ (∀ exeAt : Nat → Option LC, ∀ i rid rest,
      handleGo exeAt i [] (.workerAck rid :: rest)
        = handleGo exeAt (i + 1) [] rest) := by
  refine ⟨fun exeAt i q msgs => handleGo_queue_append exeAt msgs i q,
    ?_, ?_, ?_, ?_⟩
  · intro exeAt i p rid v e rest hx
    simp only [handleGo, hx]
  · intro exeAt i p rid v e rest x hx
    simp only [handleGo, hx]
    have h1 := handleGo_queue_append exeAt rest (i + 1)
      ([] ++ [PipelineWorker.mk x (workerCmdArgs p rid v e)])
    rw [h1]
    simp
  · intro p rid v e
    exact ⟨rfl, rfl, rfl, rfl⟩
  · intro exeAt i rid rest
    rfl

/-- Witness for C9: the first enqueue fails to resolve the executable and
is skipped, the second is appended with the full command line. -/
theorem C9_supervisor_enqueue_witness :
    exeAtW 0 = none
    ∧ handleGo exeAtW 0 []
        [UnixSocketMessage.serverEnqueue ("p1".data) ("r1".data) none none]
      = handleGo exeAtW 1 [] []
    ∧ handleGo exeAtW 1 []
        [UnixSocketMessage.serverEnqueue ("p2".data) ("r2".data)
          (some ("v2".data)) none]
      = ⟨"/bld".data,
          workerCmdArgs ("p2".data) ("r2".data) (some ("v2".data)) none⟩
        :: handleGo exeAtW 2 [] [] := by
  have h := C9_supervisor_enqueue
  exact ⟨rfl, h.2.1 exeAtW 0 ("p1".data) ("r1".data) none none [] rfl,
    h.2.2.1 exeAtW 1 ("p2".data) ("r2".data) (some ("v2".data)) none []
      ("/bld".data) rfl⟩

/- ### Case equations for the runner interpreter -/

theorem artifactsR_nil (tk : Tokens) (r : Runner) (o : Oracle)
    (anchor : Option LC) : artifactsR tk r o anchor [] = ([], .ok) := rfl

theorem artifactsR_skip_after (tk : Tokens) (r : Runner) (o : Oracle)
    (anchor : Option LC) (a : Artifact) (rest : List Artifact)
    (h : ¬ a.after = anchor) :
    artifactsR tk r o anchor (a :: rest) = artifactsR tk r o anchor rest := by
  rw [artifactsR, if_neg h]

theorem artifactsR_skip_can (tk : Tokens) (r : Runner) (o : Oracle)
    (anchor : Option LC) (a : Artifact) (rest : List Artifact)
    (h1 : a.after = anchor) (h2 : canContinue tk a = false) :
    artifactsR tk r o anchor (a :: rest) = artifactsR tk r o anchor rest := by
  rw [artifactsR, if_pos h1, if_neg (by simp [h2])]

theorem artifactsR_cons_ok (tk : Tokens) (r : Runner) (o : Oracle)
    (anchor : Option LC) (a : Artifact) (rest : List Artifact)
    (h1 : a.after = anchor) (h2 : canContinue tk a = true)
    (h3 : (artDispatch tk r o a).2 = .ok) :
    artifactsR tk r o anchor (a :: rest)
      = (Event.logCopy (artFrom tk r a) (artTo tk r a)
          :: ((artDispatch tk r o a).1 ++ (artifactsR tk r o anchor rest).1),
        (artifactsR tk r o anchor rest).2) := by
  simp only [artifactsR]
  rw [if_pos h1, if_pos h2]
  simp only [h3]

theorem artifactsR_cons_panic (tk : Tokens) (r : Runner) (o : Oracle)
    (anchor : Option LC) (a : Artifact) (rest : List Artifact)
    (h1 : a.after = anchor) (h2 : canContinue tk a = true)
    (h3 : (artDispatch tk r o a).2 = .fail .panicked) :
    artifactsR tk r o anchor (a :: rest)
      = (Event.logCopy (artFrom tk r a) (artTo tk r a)
          :: (artDispatch tk r o a).1, .fail .panicked) := by
  simp only [artifactsR]
  rw [if_pos h1, if_pos h2]
  simp only [h3]

theorem artifactsR_cons_fail_ignore (tk : Tokens) (r : Runner) (o : Oracle)
    (anchor : Option LC) (a : Artifact) (rest : List Artifact) (e : RErr)
    (h1 : a.after = anchor) (h2 : canContinue tk a = true)
    (h3 : (artDispatch tk r o a).2 = .fail e) (he : ¬ e = .panicked)
    (hig : a.ignore_errors = true) :
    artifactsR tk r o anchor (a :: rest)
      = (Event.logCopy (artFrom tk r a) (artTo tk r a)
          :: ((artDispatch tk r o a).1 ++ (artifactsR tk r o anchor rest).1),
        (artifactsR tk r o anchor rest).2) := by
  cases e
  case panicked => exact absurd rfl he
  all_goals
    simp only [artifactsR]
    rw [if_pos h1, if_pos h2]
    simp only [h3]
    rw [if_pos hig]

theorem artifactsR_cons_fail_abort (tk : Tokens) (r : Runner) (o : Oracle)
    (anchor : Option LC) (a : Artifact) (rest : List Artifact) (e : RErr)
    (h1 : a.after = anchor) (h2 : canContinue tk a = true)
    (h3 : (artDispatch tk r o a).2 = .fail e) (he : ¬ e = .panicked)
    (hig : a.ignore_errors = false) :
    artifactsR tk r o anchor (a :: rest)
      = (Event.logCopy (artFrom tk r a) (artTo tk r a)
          :: (artDispatch tk r o a).1, .fail e) := by
  cases e
  case panicked => exact absurd rfl he
  all_goals
    simp only [artifactsR]
    rw [if_pos h1, if_pos h2]
    simp only [h3]
    rw [if_neg (by simp [hig])]

theorem shDispatch_eq (tk : Tokens) (r : Runner) (o : Oracle) (s : BuildStep)
    (cmd : LC) :
    shDispatch tk r o s cmd
      = ([.shell (shWd tk r s) (applyContext tk r cmd)],
        if o.shellOk (shWd tk r s) (applyContext tk r cmd) then .ok
        else .fail .shellFailed) := by
  cases hr : r.platform <;>
    simp [shDispatch, Machine.sh, Container.sh, hr]

theorem shR_nil (tk : Tokens) (r : Runner) (o : Oracle) (s : BuildStep)
    (σ : Nat) : shR tk r o s σ [] = ([], σ, .ok) := rfl

theorem shR_cons_fail (tk : Tokens) (r : Runner) (o : Oracle) (s : BuildStep)
    (σ : Nat) (cmd : LC) (rest : List LC) (e : RErr)
    (h : (shDispatch tk r o s cmd).2 = .fail e) :
    shR tk r o s σ (cmd :: rest)
      = ((shDispatch tk r o s cmd).1, σ, .fail e) := by
  simp only [shR, h]

theorem shR_cons_stop (tk : Tokens) (r : Runner) (o : Oracle) (s : BuildStep)
    (σ : Nat) (cmd : LC) (rest : List LC)
    (h : (shDispatch tk r o s cmd).2 = .ok) (hcm : r.cm = true)
    (hs : o.stop σ = true) :
    shR tk r o s σ (cmd :: rest)
      = ((shDispatch tk r o s cmd).1 ++ [.checkStop], σ + 1,
        .fail .cancelled) := by
  simp only [shR, h, checkStopSignal, hcm, hs, if_true]

theorem shR_cons_go (tk : Tokens) (r : Runner) (o : Oracle) (s : BuildStep)
    (σ : Nat) (cmd : LC) (rest : List LC)
    (h : (shDispatch tk r o s cmd).2 = .ok) (hcm : r.cm = true)
    (hs : o.stop σ = false) :
    shR tk r o s σ (cmd :: rest)
      = ((shDispatch tk r o s cmd).1 ++ [.checkStop]
          ++ (shR tk r o s (σ + 1) rest).1,
        (shR tk r o s (σ + 1) rest).2.1, (shR tk r o s (σ + 1) rest).2.2) := by
  simp only [shR, h, checkStopSignal, hcm, hs, if_true]
  simp

theorem callR_nil (tk : Tokens) (fuel : Nat) (r : Runner) (o : Oracle)
    (σ : Nat) : callR tk fuel r o σ [] = ([], σ, .ok) := rfl

theorem callR_cons_nofuel (tk : Tokens) (r : Runner) (o : Oracle) (σ : Nat)
    (name : LC) (rest : List LC) :
    callR tk 0 r o σ (name :: rest) = ([], σ, .fail .outOfFuel) := rfl

theorem callR_cons_builderr (tk : Tokens) (fuel : Nat) (r : Runner)
    (o : Oracle) (σ : Nat) (name : LC) (rest : List LC) (e : RErr)
    (h : buildChild r o name = .error e) :
    callR tk (fuel + 1) r o σ (name :: rest) = ([], σ, .fail e) := by
  simp only [callR, callRP, doCallAt, h]

theorem callR_cons_runfail (tk : Tokens) (fuel : Nat) (r : Runner)
    (o : Oracle) (σ : Nat) (name : LC) (rest : List LC) (child : Runner)
    (e : RErr) (h : buildChild r o name = .ok child)
    (h2 : (runR tk fuel child o σ).2.2 = .fail e) :
    callR tk (fuel + 1) r o σ (name :: rest)
      = ((runR tk fuel child o σ).1, (runR tk fuel child o σ).2.1,
        .fail e) := by
  simp only [callR, callRP, doCallAt, h, h2]

theorem callR_cons_stop (tk : Tokens) (fuel : Nat) (r : Runner) (o : Oracle)
    (σ : Nat) (name : LC) (rest : List LC) (child : Runner)
    (h : buildChild r o name = .ok child)
    (h2 : (runR tk fuel child o σ).2.2 = .ok) (hcm : r.cm = true)
    (hs : o.stop (runR tk fuel child o σ).2.1 = true) :
    callR tk (fuel + 1) r o σ (name :: rest)
      = ((runR tk fuel child o σ).1 ++ [.checkStop],
        (runR tk fuel child o σ).2.1 + 1, .fail .cancelled) := by
  simp only [callR, callRP, doCallAt, h, h2, checkStopSignal, hcm, hs,
    if_true]

theorem callR_cons_go (tk : Tokens) (fuel : Nat) (r : Runner) (o : Oracle)
    (σ : Nat) (name : LC) (rest : List LC) (child : Runner)
    (h : buildChild r o name = .ok child)
    (h2 : (runR tk fuel child o σ).2.2 = .ok) (hcm : r.cm = true)
    (hs : o.stop (runR tk fuel child o σ).2.1 = false) :
    callR tk (fuel + 1) r o σ (name :: rest)
      = ((runR tk fuel child o σ).1 ++ [.checkStop]
          ++ (callR tk (fuel + 1) r o ((runR tk fuel child o σ).2.1 + 1) rest).1,
        (callR tk (fuel + 1) r o ((runR tk fuel child o σ).2.1 + 1) rest).2.1,
        (callR tk (fuel + 1) r o ((runR tk fuel child o σ).2.1 + 1) rest).2.2) := by
  simp only [callR, callRP, doCallAt, h, h2, checkStopSignal, hcm, hs,
    if_true]
  simp

theorem stepR_eq_callfail (tk : Tokens) (fuel : Nat) (r : Runner)
    (o : Oracle) (σ : Nat) (s : BuildStep) (e : RErr)
    (h : (callR tk fuel r o σ s.call).2.2 = .fail e) :
    stepR tk fuel r o σ s
      = (stepNameTrace s ++ (callR tk fuel r o σ s.call).1,
        (callR tk fuel r o σ s.call).2.1, .fail e) := by
  simp only [callR] at h
  simp only [stepR, stepRP, h, callR]

theorem stepR_eq_ok (tk : Tokens) (fuel : Nat) (r : Runner) (o : Oracle)
    (σ : Nat) (s : BuildStep)
    (h : (callR tk fuel r o σ s.call).2.2 = .ok) :
    stepR tk fuel r o σ s
      = (stepNameTrace s ++ (callR tk fuel r o σ s.call).1
          ++ (shR tk r o s (callR tk fuel r o σ s.call).2.1 s.commands).1,
        (shR tk r o s (callR tk fuel r o σ s.call).2.1 s.commands).2.1,
        (shR tk r o s (callR tk fuel r o σ s.call).2.1 s.commands).2.2) := by
  simp only [callR] at h
  simp only [stepR, stepRP, h, callR]

theorem stepsR_nil (tk : Tokens) (fuel : Nat) (r : Runner) (o : Oracle)
    (σ : Nat) : stepsR tk fuel r o σ [] = ([], σ, .ok) := rfl

theorem stepsR_cons_stepfail (tk : Tokens) (fuel : Nat) (r : Runner)
    (o : Oracle) (σ : Nat) (s : BuildStep) (rest : List BuildStep) (e : RErr)
    (h : (stepR tk fuel r o σ s).2.2 = .fail e) :
    stepsR tk fuel r o σ (s :: rest)
      = ((stepR tk fuel r o σ s).1, (stepR tk fuel r o σ s).2.1, .fail e) := by
  simp only [stepR] at h
  simp only [stepsR, stepsRP, h, stepR]

theorem stepsR_cons_artfail (tk : Tokens) (fuel : Nat) (r : Runner)
    (o : Oracle) (σ : Nat) (s : BuildStep) (rest : List BuildStep) (e : RErr)
    (h : (stepR tk fuel r o σ s).2.2 = .ok)
    (h2 : (artifactsR tk r o s.name r.pip.artifacts).2 = .fail e) :
    stepsR tk fuel r o σ (s :: rest)
      = ((stepR tk fuel r o σ s).1
          ++ (artifactsR tk r o s.name r.pip.artifacts).1,
        (stepR tk fuel r o σ s).2.1, .fail e) := by
  simp only [stepR] at h
  simp only [stepsR, stepsRP, h, h2, stepR]

theorem stepsR_cons_stop (tk : Tokens) (fuel : Nat) (r : Runner) (o : Oracle)
    (σ : Nat) (s : BuildStep) (rest : List BuildStep)
    (h : (stepR tk fuel r o σ s).2.2 = .ok)
    (h2 : (artifactsR tk r o s.name r.pip.artifacts).2 = .ok)
    (hcm : r.cm = true) (hs : o.stop (stepR tk fuel r o σ s).2.1 = true) :
    stepsR tk fuel r o σ (s :: rest)
      = ((stepR tk fuel r o σ s).1
          ++ (artifactsR tk r o s.name r.pip.artifacts).1 ++ [.checkStop],
        (stepR tk fuel r o σ s).2.1 + 1, .fail .cancelled) := by
  simp only [stepR] at h hs
  simp only [stepsR, stepsRP, h, h2, checkStopSignal, hcm, hs, if_true,
    stepR]

theorem stepsR_cons_go (tk : Tokens) (fuel : Nat) (r : Runner) (o : Oracle)
    (σ : Nat) (s : BuildStep) (rest : List BuildStep)
    (h : (stepR tk fuel r o σ s).2.2 = .ok)
    (h2 : (artifactsR tk r o s.name r.pip.artifacts).2 = .ok)
    (hcm : r.cm = true) (hs : o.stop (stepR tk fuel r o σ s).2.1 = false) :
    stepsR tk fuel r o σ (s :: rest)
      = ((stepR tk fuel r o σ s).1
          ++ (artifactsR tk r o s.name r.pip.artifacts).1 ++ [.checkStop]
          ++ (stepsR tk fuel r o ((stepR tk fuel r o σ s).2.1 + 1) rest).1,
        (stepsR tk fuel r o ((stepR tk fuel r o σ s).2.1 + 1) rest).2.1,
        (stepsR tk fuel r o ((stepR tk fuel r o σ s).2.1 + 1) rest).2.2) := by
  simp only [stepR] at h hs
  simp only [stepsR, stepsRP, h, h2, checkStopSignal, hcm, hs, if_true,
    stepR]
  simp

theorem buildRunner_fields (prx : LC → Option Pipeline) (o : Oracle)
    (rid rst : LC) (ex : ExecKind) (cm : Bool)
    (cEnv cVars : LC → Option LC) (name : LC) (pip : Pipeline) (r : Runner)
    (hp : prx name = some pip)
    (hb : buildRunner prx o rid rst ex cm cEnv cVars name = .ok r) :
    r.pip = pip
    ∧ r.env = collectHM (resolveDecls pip.environment cEnv)
    ∧ r.vars = collectHM (resolveDecls pip.vars cVars)
    ∧ r.ex = ex ∧ r.cm = cm ∧ r.run_id = rid ∧ r.run_start_time = rst
    ∧ r.prx = prx := by
  simp only [buildRunner, hp] at hb
  split at hb
  · injection hb with hb2
    subst hb2
    exact ⟨rfl, rfl, rfl, rfl, rfl, rfl, rfl, rfl⟩
  · exact absurd hb (by simp)

/- ### Equations of the run body and fuel unfolding -/

theorem runR_eq (tk : Tokens) (fuel : Nat) (r : Runner) (o : Oracle)
    (σ : Nat) : runR tk fuel r o σ = runBodyP tk (doCallAt tk fuel r o) r o σ := by
  cases fuel <;> rfl

theorem runBodyP_art_panic (tk : Tokens)
    (doCall : LC → Nat → Trace × Nat × RRes) (r : Runner) (o : Oracle)
    (σ : Nat) (h : (artifactsR tk r o none r.pip.artifacts).2 = .fail .panicked) :
    runBodyP tk doCall r o σ
      = (persistTrace r.ex true ++ r.infoTrace
          ++ (artifactsR tk r o none r.pip.artifacts).1, σ,
        .fail .panicked) := by
  simp only [runBodyP, h]

theorem runBodyP_art_fail (tk : Tokens)
    (doCall : LC → Nat → Trace × Nat × RRes) (r : Runner) (o : Oracle)
    (σ : Nat) (e : RErr)
    (h : (artifactsR tk r o none r.pip.artifacts).2 = .fail e)
    (he : ¬ e = .panicked) :
    runBodyP tk doCall r o σ
      = (persistTrace r.ex true ++ r.infoTrace
          ++ (artifactsR tk r o none r.pip.artifacts).1 ++ [.logErr e]
          ++ persistTrace r.ex false ++ (Runner.dispose r o).1, σ,
        (Runner.dispose r o).2) := by
  cases e
  case panicked => exact absurd rfl he
  all_goals simp only [runBodyP, h]

theorem runBodyP_steps_panic (tk : Tokens)
    (doCall : LC → Nat → Trace × Nat × RRes) (r : Runner) (o : Oracle)
    (σ : Nat) (h : (artifactsR tk r o none r.pip.artifacts).2 = .ok)
    (h2 : (stepsRP tk doCall r o σ r.pip.steps).2.2 = .fail .panicked) :
    runBodyP tk doCall r o σ
      = (persistTrace r.ex true ++ r.infoTrace
          ++ (artifactsR tk r o none r.pip.artifacts).1
          ++ (stepsRP tk doCall r o σ r.pip.steps).1,
        (stepsRP tk doCall r o σ r.pip.steps).2.1, .fail .panicked) := by
  simp only [runBodyP, h, h2]

theorem runBodyP_steps_fail (tk : Tokens)
    (doCall : LC → Nat → Trace × Nat × RRes) (r : Runner) (o : Oracle)
    (σ : Nat) (e : RErr)
    (h : (artifactsR tk r o none r.pip.artifacts).2 = .ok)
    (h2 : (stepsRP tk doCall r o σ r.pip.steps).2.2 = .fail e)
    (he : ¬ e = .panicked) :
    runBodyP tk doCall r o σ
      = (persistTrace r.ex true ++ r.infoTrace
          ++ (artifactsR tk r o none r.pip.artifacts).1
          ++ (stepsRP tk doCall r o σ r.pip.steps).1 ++ [.logErr e]
          ++ persistTrace r.ex false ++ (Runner.dispose r o).1,
        (stepsRP tk doCall r o σ r.pip.steps).2.1,
        (Runner.dispose r o).2) := by
  cases e
  case panicked => exact absurd rfl he
  all_goals simp only [runBodyP, h, h2]

theorem runBodyP_ok (tk : Tokens)
    (doCall : LC → Nat → Trace × Nat × RRes) (r : Runner) (o : Oracle)
    (σ : Nat) (h : (artifactsR tk r o none r.pip.artifacts).2 = .ok)
    (h2 : (stepsRP tk doCall r o σ r.pip.steps).2.2 = .ok) :
    runBodyP tk doCall r o σ
      = (persistTrace r.ex true ++ r.infoTrace
          ++ (artifactsR tk r o none r.pip.artifacts).1
          ++ (stepsRP tk doCall r o σ r.pip.steps).1
          ++ persistTrace r.ex false ++ (Runner.dispose r o).1,
        (stepsRP tk doCall r o σ r.pip.steps).2.1,
        (Runner.dispose r o).2) := by
  simp only [runBodyP, h, h2]

/- ### No executor-state update outside persist_start / persist_end -/

theorem noPersist_append (a b : Trace) :
    noPersist (a ++ b) = (noPersist a && noPersist b) := by
  simp [noPersist]

theorem noPersist_cons (e : Event) (t : Trace) :
    noPersist (e :: t) = (!isPersistEvent e && noPersist t) := by
  simp [noPersist]

theorem noPersist_copyDispatch (p : TargetPlatform) (o : Oracle)
    (tk : Tokens) (m f t : LC) :
    noPersist (copyDispatch p o tk m f t).1 = true := by
  cases p <;> rw [copyDispatch] <;> split_ifs <;>
    simp [Machine.copy_into, Machine.copy_from, Container.copy_into,
      Container.copy_from, noPersist, isPersistEvent]

theorem noPersist_artDispatch (tk : Tokens) (r : Runner) (o : Oracle)
    (a : Artifact) : noPersist (artDispatch tk r o a).1 = true := by
  rw [artDispatch]
  exact noPersist_copyDispatch r.platform o tk _ _ _

theorem noPersist_artifactsR (tk : Tokens) (r : Runner) (o : Oracle)
    (anchor : Option LC) :
    ∀ arts, noPersist (artifactsR tk r o anchor arts).1 = true := by
  intro arts
  induction arts with
  | nil => rfl
  | cons a rest ih =>
    by_cases h1 : a.after = anchor
    · cases hc : canContinue tk a with
      | false => rw [artifactsR_skip_can tk r o anchor a rest h1 hc]; exact ih
      | true =>
        rcases hd : (artDispatch tk r o a).2 with _ | e
        · rw [artifactsR_cons_ok tk r o anchor a rest h1 hc hd,
            noPersist_cons, noPersist_append, noPersist_artDispatch, ih]
          rfl
        · by_cases he : e = RErr.panicked
          · subst he
            rw [artifactsR_cons_panic tk r o anchor a rest h1 hc hd,
              noPersist_cons, noPersist_artDispatch]
            rfl
          · cases hig : a.ignore_errors with
            | true =>
              rw [artifactsR_cons_fail_ignore tk r o anchor a rest e h1 hc hd
                  he hig,
                noPersist_cons, noPersist_append, noPersist_artDispatch, ih]
              rfl
            | false =>
              rw [artifactsR_cons_fail_abort tk r o anchor a rest e h1 hc hd
                  he hig,
                noPersist_cons, noPersist_artDispatch]
              rfl
    · rw [artifactsR_skip_after tk r o anchor a rest h1]; exact ih

theorem noPersist_checkStop (cm : Bool) (o : Oracle) (σ : Nat) :
    noPersist (checkStopSignal cm o σ).1 = true := by
  cases cm <;> simp [checkStopSignal, noPersist, isPersistEvent]

theorem noPersist_shDispatch (tk : Tokens) (r : Runner) (o : Oracle)
    (s : BuildStep) (cmd : LC) :
    noPersist (shDispatch tk r o s cmd).1 = true := by
  rw [shDispatch_eq]
  simp [noPersist, isPersistEvent]

theorem noPersist_shR (tk : Tokens) (r : Runner) (o : Oracle) (s : BuildStep) :
    ∀ cmds σ, noPersist (shR tk r o s σ cmds).1 = true := by
  intro cmds
  induction cmds with
  | nil => intro σ; rfl
  | cons cmd rest ih =>
    intro σ
    rcases hd : (shDispatch tk r o s cmd).2 with _ | e
    · rcases hk : (checkStopSignal r.cm o σ).2.2 with _ | e2
      · simp only [shR, hd, hk]
        rw [noPersist_append, noPersist_append, noPersist_shDispatch,
          noPersist_checkStop, ih]
        rfl
      · simp only [shR, hd, hk]
        rw [noPersist_append, noPersist_shDispatch, noPersist_checkStop]
        rfl
    · simp only [shR, hd]
      exact noPersist_shDispatch tk r o s cmd

theorem noPersist_stepNameTrace (s : BuildStep) :
    noPersist (stepNameTrace s) = true := by
  cases h : s.name <;> simp [stepNameTrace, h, noPersist, isPersistEvent]

theorem noPersist_infoTrace (r : Runner) :
    noPersist r.infoTrace = true := by
  cases h : r.pip.name <;>
    simp [Runner.infoTrace, h, noPersist, isPersistEvent]

theorem noPersist_dispose (r : Runner) (o : Oracle) :
    noPersist (Runner.dispose r o).1 = true := by
  rw [Runner.dispose]
  split_ifs
  · cases r.platform <;>
      simp [Machine.dispose, Container.dispose, noPersist, isPersistEvent]
  · rfl

theorem noPersist_callRP (doCall : LC → Nat → Trace × Nat × RRes) (cm : Bool)
    (o : Oracle) (hdo : ∀ name σ, noPersist (doCall name σ).1 = true) :
    ∀ calls σ, noPersist (callRP doCall cm o σ calls).1 = true := by
  intro calls
  induction calls with
  | nil => intro σ; rfl
  | cons name rest ih =>
    intro σ
    rcases hx : (doCall name σ).2.2 with _ | e
    · rcases hk : (checkStopSignal cm o (doCall name σ).2.1).2.2 with _ | e2
      · simp only [callRP, hx, hk]
        rw [noPersist_append, noPersist_append, hdo, noPersist_checkStop, ih]
        rfl
      · simp only [callRP, hx, hk]
        rw [noPersist_append, hdo, noPersist_checkStop]
        rfl
    · simp only [callRP, hx]
      exact hdo name σ

theorem noPersist_stepRP (tk : Tokens)
    (doCall : LC → Nat → Trace × Nat × RRes) (r : Runner) (o : Oracle)
    (hdo : ∀ name σ, noPersist (doCall name σ).1 = true) :
    ∀ s σ, noPersist (stepRP tk doCall r o σ s).1 = true := by
  intro s σ
  rcases hc : (callRP doCall r.cm o σ s.call).2.2 with _ | e
  · simp only [stepRP, hc]
    rw [noPersist_append, noPersist_append, noPersist_stepNameTrace,
      noPersist_callRP doCall r.cm o hdo, noPersist_shR]
    rfl
  · simp only [stepRP, hc]
    rw [noPersist_append, noPersist_stepNameTrace,
      noPersist_callRP doCall r.cm o hdo]
    rfl

theorem noPersist_stepsRP (tk : Tokens)
    (doCall : LC → Nat → Trace × Nat × RRes) (r : Runner) (o : Oracle)
    (hdo : ∀ name σ, noPersist (doCall name σ).1 = true) :
    ∀ steps σ, noPersist (stepsRP tk doCall r o σ steps).1 = true := by
  intro steps
  induction steps with
  | nil => intro σ; rfl
  | cons s rest ih =>
    intro σ
    rcases hx : (stepRP tk doCall r o σ s).2.2 with _ | e
    · rcases ha : (artifactsR tk r o s.name r.pip.artifacts).2 with _ | e2
      · rcases hk : (checkStopSignal r.cm o (stepRP tk doCall r o σ s).2.1).2.2
          with _ | e3
        · simp only [stepsRP, hx, ha, hk]
          rw [noPersist_append, noPersist_append, noPersist_append,
            noPersist_stepRP tk doCall r o hdo, noPersist_artifactsR,
            noPersist_checkStop, ih]
          rfl
        · simp only [stepsRP, hx, ha, hk]
          rw [noPersist_append, noPersist_append,
            noPersist_stepRP tk doCall r o hdo, noPersist_artifactsR,
            noPersist_checkStop]
          rfl
      · simp only [stepsRP, hx, ha]
        rw [noPersist_append, noPersist_stepRP tk doCall r o hdo,
          noPersist_artifactsR]
        rfl
    · simp only [stepsRP, hx]
      exact noPersist_stepRP tk doCall r o hdo s σ

theorem noPersist_runBodyP_empty (tk : Tokens)
    (doCall : LC → Nat → Trace × Nat × RRes) (r : Runner) (o : Oracle)
    (σ : Nat) (hdo : ∀ name σ2, noPersist (doCall name σ2).1 = true)
    (hex : r.ex = .empty) :
    noPersist (runBodyP tk doCall r o σ).1 = true := by
  have hpt : ∀ b, persistTrace r.ex b = [] := by
    intro b; rw [hex]; rfl
  rcases ha : (artifactsR tk r o none r.pip.artifacts).2 with _ | e
  · rcases hs : (stepsRP tk doCall r o σ r.pip.steps).2.2 with _ | e2
    · rw [runBodyP_ok tk doCall r o σ ha hs, hpt, hpt]
      simp only [noPersist_append]
      rw [noPersist_infoTrace, noPersist_artifactsR,
        noPersist_stepsRP tk doCall r o hdo, noPersist_dispose]
      rfl
    · by_cases he : e2 = RErr.panicked
      · subst he
        rw [runBodyP_steps_panic tk doCall r o σ ha hs, hpt]
        simp only [noPersist_append]
        rw [noPersist_infoTrace, noPersist_artifactsR,
          noPersist_stepsRP tk doCall r o hdo]
        rfl
      · rw [runBodyP_steps_fail tk doCall r o σ e2 ha hs he, hpt, hpt]
        simp only [noPersist_append]
        rw [noPersist_infoTrace, noPersist_artifactsR,
          noPersist_stepsRP tk doCall r o hdo, noPersist_dispose]
        simp [noPersist, isPersistEvent]
  · by_cases he : e = RErr.panicked
    · subst he
      rw [runBodyP_art_panic tk doCall r o σ ha, hpt]
      simp only [noPersist_append]
      rw [noPersist_infoTrace, noPersist_artifactsR]
      rfl
    · rw [runBodyP_art_fail tk doCall r o σ e ha he, hpt, hpt]
      simp only [noPersist_append]
      rw [noPersist_infoTrace, noPersist_artifactsR, noPersist_dispose]
      simp [noPersist, isPersistEvent]

theorem buildChild_ex (r : Runner) (o : Oracle) (name : LC) (child : Runner)
    (h : buildChild r o name = .ok child) : child.ex = .empty := by
  rw [buildChild] at h
  cases hp : r.prx name with
  | none => rw [buildRunner, hp] at h; exact absurd h (by simp)
  | some pip =>
    obtain ⟨-, -, -, hex, -⟩ :=
      buildRunner_fields r.prx o r.run_id r.run_start_time .empty r.cm
        (hmGet r.env) (hmGet r.vars) name pip child hp h
    exact hex

theorem noPersist_doCallAt (tk : Tokens) :
    ∀ fuel : Nat, ∀ r : Runner, ∀ o : Oracle, ∀ name σ,
      noPersist ((doCallAt tk fuel r o) name σ).1 = true := by
  intro fuel
  induction fuel with
  | zero => intro r o name σ; rfl
  | succ fuel ih =>
    intro r o name σ
    simp only [doCallAt]
    rcases hb : buildChild r o name with e | child
    · rfl
    · show noPersist (runR tk fuel child o σ).1 = true
      rw [runR_eq]
      exact noPersist_runBodyP_empty tk _ child o σ
        (fun name2 σ2 => ih child o name2 σ2) (buildChild_ex r o name child hb)

theorem noPersist_stepsR (tk : Tokens) (fuel : Nat) (r : Runner) (o : Oracle)
    (σ : Nat) (steps : List BuildStep) :
    noPersist (stepsR tk fuel r o σ steps).1 = true := by
  rw [stepsR]
  exact noPersist_stepsRP tk _ r o
    (fun name σ2 => noPersist_doCallAt tk fuel r o name σ2) steps σ

/- ### Run lifecycle -/

/-- C1: for every run of a real-executor Runner (any oracle, fuel and stop
counter), unless an artifact dispatch panics, the trace is exactly: the
running flag set, the info lines, a body holding all artifact, step and
child events and containing no executor update, the running flag cleared,
and finally this runner's dispose events (nonempty whenever the pipeline's
dispose flag is set).  Hence persist_start precedes any artifact or step,
persist_end follows every step, and dispose follows persist_end, even when
the pre-steps artifacts or any step fails. -/
theorem C1_run_lifecycle (tk : Tokens) (fuel : Nat) (r : Runner) (o : Oracle)
    (σ : Nat) (hex : r.ex = .real)
    (hnp : (runR tk fuel r o σ).2.2 ≠ .fail .panicked) :
    ∃ body : Trace,
      (runR tk fuel r o σ).1
        = Event.updateRunning true :: (r.infoTrace ++ body
            ++ Event.updateRunning false :: (Runner.dispose r o).1)
      ∧ noPersist body = true
      ∧ (∀ e ∈ (Runner.dispose r o).1, isDisposeEvent e = true)
      ∧ (r.pip.dispose = true → (Runner.dispose r o).1 ≠ []) := by
  have hdo := fun name σ2 => noPersist_doCallAt tk fuel r o name σ2
  have hpt : persistTrace r.ex true = [Event.updateRunning true] := by
    rw [hex]; rfl
  have hpf : persistTrace r.ex false = [Event.updateRunning false] := by
    rw [hex]; rfl
  have hdisp : ∀ e ∈ (Runner.dispose r o).1, isDisposeEvent e = true := by
    rw [Runner.dispose]
    split_ifs
    · cases r.platform <;>
        simp [Machine.dispose, Container.dispose, isDisposeEvent]
    · simp
  have hnonempty : r.pip.dispose = true → (Runner.dispose r o).1 ≠ [] := by
    intro hd
    rw [Runner.dispose, if_pos hd]
    cases r.platform <;> simp [Machine.dispose, Container.dispose]
  rw [runR_eq] at hnp ⊢
  rcases ha : (artifactsR tk r o none r.pip.artifacts).2 with _ | e
  · rcases hs : (stepsRP tk (doCallAt tk fuel r o) r o σ r.pip.steps).2.2
      with _ | e2
    · refine ⟨(artifactsR tk r o none r.pip.artifacts).1
        ++ (stepsRP tk (doCallAt tk fuel r o) r o σ r.pip.steps).1,
        ?_, ?_, hdisp, hnonempty⟩
      · rw [runBodyP_ok tk _ r o σ ha hs, hpt, hpf]
        simp
      · rw [noPersist_append, noPersist_artifactsR,
          noPersist_stepsRP tk _ r o hdo]
        rfl
    · by_cases he : e2 = RErr.panicked
      · subst he
        rw [runBodyP_steps_panic tk _ r o σ ha hs] at hnp
        simp at hnp
      · refine ⟨(artifactsR tk r o none r.pip.artifacts).1
          ++ (stepsRP tk (doCallAt tk fuel r o) r o σ r.pip.steps).1
          ++ [Event.logErr e2], ?_, ?_, hdisp, hnonempty⟩
        · rw [runBodyP_steps_fail tk _ r o σ e2 ha hs he, hpt, hpf]
          simp
        · rw [noPersist_append, noPersist_append, noPersist_artifactsR,
            noPersist_stepsRP tk _ r o hdo]
          simp [noPersist, isPersistEvent]
  · by_cases he : e = RErr.panicked
    · subst he
      rw [runBodyP_art_panic tk _ r o σ ha] at hnp
      simp at hnp
    · refine ⟨(artifactsR tk r o none r.pip.artifacts).1
        ++ [Event.logErr e], ?_, ?_, hdisp, hnonempty⟩
      · rw [runBodyP_art_fail tk _ r o σ e ha he, hpt, hpf]
        simp
      · rw [noPersist_append, noPersist_artifactsR]
        simp [noPersist, isPersistEvent]

/-- Witness for C1: on a concrete disposing machine run the trace starts
with the running-flag update and the dispose segment is nonempty. -/
theorem C1_run_lifecycle_witness :
    ((runR tkW 1 runnerW oW 0).1).head? = some (Event.updateRunning true)
    ∧ (Runner.dispose runnerW oW).1 ≠ [] := by
  obtain ⟨body, h1, h2, h3, h4⟩ :=
    C1_run_lifecycle tkW 1 runnerW oW 0 rfl (by decide)
  exact ⟨by rw [h1]; rfl, h4 rfl⟩

theorem runR_result (tk : Tokens) (fuel : Nat) (r : Runner) (o : Oracle)
    (σ : Nat) :
    (runR tk fuel r o σ).2.2 = .fail .panicked
    ∨ (runR tk fuel r o σ).2.2 = (Runner.dispose r o).2 := by
  rw [runR_eq]
  rcases ha : (artifactsR tk r o none r.pip.artifacts).2 with _ | e
  · rcases hs : (stepsRP tk (doCallAt tk fuel r o) r o σ r.pip.steps).2.2
      with _ | e2
    · right; rw [runBodyP_ok tk _ r o σ ha hs]
    · by_cases he : e2 = RErr.panicked
      · subst he; left; rw [runBodyP_steps_panic tk _ r o σ ha hs]
      · right; rw [runBodyP_steps_fail tk _ r o σ e2 ha hs he]
  · by_cases he : e = RErr.panicked
    · subst he; left; rw [runBodyP_art_panic tk _ r o σ ha]
    · right; rw [runBodyP_art_fail tk _ r o σ e ha he]

/-- C4 (amended): the result a caller observes when awaiting run is
exactly the outcome of dispose (ok whenever the dispose flag is clear or
disposal succeeds): artifact and step failures are logged and swallowed,
while a dispose failure is re-raised to the caller as the run's result,
contrary to the original claim (panics aside). -/
theorem C4_run_result_is_dispose (tk : Tokens) (fuel : Nat) (r : Runner)
    (o : Oracle) (σ : Nat)
    (h : (runR tk fuel r o σ).2.2 ≠ .fail .panicked) :
    (runR tk fuel r o σ).2.2 = (Runner.dispose r o).2 := by
  rcases runR_result tk fuel r o σ with h2 | h2
  · exact absurd h2 h
  · exact h2

/-- Witness for the amended C4 at a concrete run with failing disposal. -/
theorem C4_run_result_is_dispose_witness :
    (runR tkW 1 runnerW oDisposeFail 0).2.2
      = (Runner.dispose runnerW oDisposeFail).2 :=
  C4_run_result_is_dispose tkW 1 runnerW oDisposeFail 0 (by decide)

/-- Counterexample to C4 as stated: with a failing machine dispose, the
caller awaiting the run observes precisely the error originating from
dispose. -/
theorem C4_counterexample :
    (runR tkW 1 runnerW oDisposeFail 0).2.2 = .fail .disposeFailed := by
  decide

/-- C3 (amended): a failure building a child Runner (pipeline resolution,
parse, platform init) or a failure of the child's own dispose propagates
to the parent as the failure of that step, and any failed step aborts the
remaining sibling steps; but the child's internal artifact and step
failures do not propagate: the child's run result is exactly its dispose
outcome (panics aside). -/
theorem C3_child_failure :
    (∀ tk : Tokens, ∀ fuel : Nat, ∀ r : Runner, ∀ o : Oracle, ∀ σ : Nat,
      ∀ name : LC, ∀ rest : List LC, ∀ e : RErr,
      buildChild r o name = .error e →
        callR tk (fuel + 1) r o σ (name :: rest) = ([], σ, .fail e))
    ∧ (∀ tk : Tokens, ∀ fuel : Nat, ∀ r : Runner, ∀ o : Oracle, ∀ σ : Nat,
      ∀ name : LC, ∀ rest : List LC, ∀ child : Runner, ∀ e : RErr,
      buildChild r o name = .ok child →
      (runR tk fuel child o σ).2.2 = .fail e →
        callR tk (fuel + 1) r o σ (name :: rest)
          = ((runR tk fuel child o σ).1, (runR tk fuel child o σ).2.1,
            .fail e))
    ∧ (∀ tk : Tokens, ∀ fuel : Nat, ∀ child : Runner, ∀ o : Oracle,
      ∀ σ : Nat, (runR tk fuel child o σ).2.2 ≠ .fail .panicked →
        (runR tk fuel child o σ).2.2 = (Runner.dispose child o).2)
    ∧ (∀ tk : Tokens, ∀ fuel : Nat, ∀ r : Runner, ∀ o : Oracle, ∀ σ : Nat,
      ∀ s : BuildStep, ∀ rest : List BuildStep, ∀ e : RErr,
      (stepR tk fuel r o σ s).2.2 = .fail e →
        stepsR tk fuel r o σ (s :: rest)
          = ((stepR tk fuel r o σ s).1, (stepR tk fuel r o σ s).2.1,
            .fail e)) := by
  refine ⟨?_, ?_, ?_, ?_⟩
  · intro tk fuel r o σ name rest e h
    exact callR_cons_builderr tk fuel r o σ name rest e h
  · intro tk fuel r o σ name rest child e h h2
    exact callR_cons_runfail tk fuel r o σ name rest child e h h2
  · intro tk fuel child o σ h
    rcases runR_result tk fuel child o σ with h2 | h2
    · exact absurd h2 h
    · exact h2
  · intro tk fuel r o σ s rest e h
    exact stepsR_cons_stepfail tk fuel r o σ s rest e h

/-- Witness for the amended C3: an unresolvable call aborts with the build
error; a child whose dispose fails propagates that failure through the
call; a child's run result equals its dispose outcome; a failed step
aborts its siblings. -/
theorem C3_child_failure_witness :
    callR tkW 1 rC3 oC3 0 [("nope".data)] = ([], 0, .fail .buildFailed)
    ∧ callR tkW 1 rC3b oDisposeFail 0 [("childd".data)]
        = ((runR tkW 0 rChildD oDisposeFail 0).1,
          (runR tkW 0 rChildD oDisposeFail 0).2.1, .fail .disposeFailed)
    ∧ (runR tkW 0 rChildD oDisposeFail 0).2.2
        = (Runner.dispose rChildD oDisposeFail).2
    ∧ stepsR tkW 1 rC3 oC3 0 [sBoom, sAfter]
        = ((stepR tkW 1 rC3 oC3 0 sBoom).1,
          (stepR tkW 1 rC3 oC3 0 sBoom).2.1, .fail .shellFailed) := by
  have h := C3_child_failure
  exact ⟨h.1 tkW 0 rC3 oC3 0 ("nope".data) [] RErr.buildFailed rfl,
    h.2.1 tkW 0 rC3b oDisposeFail 0 ("childd".data) [] rChildD
      RErr.disposeFailed rfl (by decide),
    h.2.2.1 tkW 0 rChildD oDisposeFail 0 (by decide),
    h.2.2.2 tkW 1 rC3 oC3 0 sBoom [sAfter] RErr.shellFailed (by decide)⟩

/-- Counterexample to C3 as stated: the child's shell command boom fails
(the oracle rejects it and the shell event is in the trace), yet the
parent's run completes with ok and the sibling step after the failing call
still executes its command. -/
theorem C3_counterexample :
    oC3.shellOk none ("boom".data) = false
    ∧ Event.shell none ("boom".data) ∈ (runR tkW 2 rC3 oC3 0).1
    ∧ Event.shell none ("after".data) ∈ (runR tkW 2 rC3 oC3 0).1
    ∧ (runR tkW 2 rC3 oC3 0).2.2 = .ok := by
  refine ⟨by decide, by decide, by decide, by decide⟩

/-- C5 (amended): for a matching complete artifact, when ignore_errors is
false a failed transfer aborts artifact processing with that error (later
artifacts are not attempted), a failed post-step artifact pass aborts step
processing, and a failed pre-steps pass skips the steps (logged, then
dispose); when ignore_errors is true the failed transfer is silently
ignored: processing continues and the emitted events are exactly those of
a successful transfer (the pre-copy log line and the copy event; no
failure log line), contrary to the original claim that the failure is
logged. -/
theorem C5_artifact_errors :
    (∀ tk : Tokens, ∀ r : Runner, ∀ o : Oracle, ∀ anchor : Option LC,
      ∀ a : Artifact, ∀ rest : List Artifact, ∀ e : RErr,
      a.after = anchor → canContinue tk a = true →
      (artDispatch tk r o a).2 = .fail e → ¬ e = .panicked →
      a.ignore_errors = false →
      artifactsR tk r o anchor (a :: rest)
        = (Event.logCopy (artFrom tk r a) (artTo tk r a)
            :: (artDispatch tk r o a).1, .fail e))
    ∧ (∀ tk : Tokens, ∀ r : Runner, ∀ o : Oracle, ∀ anchor : Option LC,
      ∀ a : Artifact, ∀ rest : List Artifact, ∀ e : RErr,
      a.after = anchor → canContinue tk a = true →
      (artDispatch tk r o a).2 = .fail e → ¬ e = .panicked →
      a.ignore_errors = true →
      artifactsR tk r o anchor (a :: rest)
        = (Event.logCopy (artFrom tk r a) (artTo tk r a)
            :: ((artDispatch tk r o a).1
              ++ (artifactsR tk r o anchor rest).1),
          (artifactsR tk r o anchor rest).2))
    ∧ (∀ tk : Tokens, ∀ r : Runner, ∀ o : Oracle, ∀ anchor : Option LC,
      ∀ a : Artifact, ∀ rest : List Artifact,
      a.after = anchor → canContinue tk a = true →
      (artDispatch tk r o a).2 = .ok →
      artifactsR tk r o anchor (a :: rest)
        = (Event.logCopy (artFrom tk r a) (artTo tk r a)
            :: ((artDispatch tk r o a).1
              ++ (artifactsR tk r o anchor rest).1),
          (artifactsR tk r o anchor rest).2))
    ∧ (∀ tk : Tokens, ∀ fuel : Nat, ∀ r : Runner, ∀ o : Oracle, ∀ σ : Nat,
      ∀ s : BuildStep, ∀ rest : List BuildStep, ∀ e : RErr,
      (stepR tk fuel r o σ s).2.2 = .ok →
      (artifactsR tk r o s.name r.pip.artifacts).2 = .fail e →
      stepsR tk fuel r o σ (s :: rest)
        = ((stepR tk fuel r o σ s).1
            ++ (artifactsR tk r o s.name r.pip.artifacts).1,
          (stepR tk fuel r o σ s).2.1, .fail e))
    ∧ (∀ tk : Tokens, ∀ fuel : Nat, ∀ r : Runner, ∀ o : Oracle, ∀ σ : Nat,
      ∀ e : RErr,
      (artifactsR tk r o none r.pip.artifacts).2 = .fail e →
      ¬ e = .panicked →
      runR tk fuel r o σ
        = (persistTrace r.ex true ++ r.infoTrace
            ++ (artifactsR tk r o none r.pip.artifacts).1 ++ [.logErr e]
            ++ persistTrace r.ex false ++ (Runner.dispose r o).1, σ,
          (Runner.dispose r o).2)) := by
  refine ⟨?_, ?_, ?_, ?_, ?_⟩
  · intro tk r o anchor a rest e h1 h2 h3 he hig
    exact artifactsR_cons_fail_abort tk r o anchor a rest e h1 h2 h3 he hig
  · intro tk r o anchor a rest e h1 h2 h3 he hig
    exact artifactsR_cons_fail_ignore tk r o anchor a rest e h1 h2 h3 he hig
  · intro tk r o anchor a rest h1 h2 h3
    exact artifactsR_cons_ok tk r o anchor a rest h1 h2 h3
  · intro tk fuel r o σ s rest e h h2
    exact stepsR_cons_artfail tk fuel r o σ s rest e h h2
  · intro tk fuel r o σ e h he
    rw [runR_eq]
    exact runBodyP_art_fail tk _ r o σ e h he

/-- Witness for the amended C5: a failing non-ignored artifact aborts with
the copy error; the same failing artifact with ignore_errors set is
processed with an ok result. -/
theorem C5_artifact_errors_witness :
    artifactsR tkW runnerW oCopyFail none [⟨some ("push".data),
        some ("/a".data), some ("/b".data), none, false⟩]
      = (Event.logCopy (artFrom tkW runnerW artIg) (artTo tkW runnerW artIg)
          :: (artDispatch tkW runnerW oCopyFail artIg).1, .fail .copyFailed)
    ∧ artifactsR tkW runnerW oCopyFail none [artIg]
      = (Event.logCopy (artFrom tkW runnerW artIg) (artTo tkW runnerW artIg)
          :: ((artDispatch tkW runnerW oCopyFail artIg).1
            ++ (artifactsR tkW runnerW oCopyFail none []).1),
        (artifactsR tkW runnerW oCopyFail none []).2) := by
  have h := C5_artifact_errors
  exact ⟨h.1 tkW runnerW oCopyFail none _ [] RErr.copyFailed rfl (by decide)
      (by decide) (by decide) rfl,
    h.2.1 tkW runnerW oCopyFail none artIg [] RErr.copyFailed rfl (by decide)
      (by decide) (by decide) rfl⟩

/-- Counterexample to C5 as stated: an ignored transfer failure is not
logged — the trace equals the trace of a successful transfer, and the
result is ok although the copy failed. -/
theorem C5_counterexample :
    oCopyFail.copyOk true (artFrom tkW runnerW artIg)
        (artTo tkW runnerW artIg) = false
    ∧ artifactsR tkW runnerW oCopyFail none [artIg]
        = artifactsR tkW runnerW oW none [artIg]
    ∧ (artifactsR tkW runnerW oCopyFail none [artIg]).2 = .ok := by
  refine ⟨by decide, by decide, by decide⟩

/-- C8: within a Runner holding a stop receiver, the receiver is polled
directly after every successfully dispatched shell command, after every
successfully awaited call-site, and after every step (following its
post-step artifacts): the checkStop event immediately follows and the
counter advances by one; when the poll observes a delivered token, the
current pipeline unwinds with a cancellation failure and the remaining
commands, call-sites or steps contribute no further events. -/
theorem C8_stop_checkpoints :
    (∀ tk : Tokens, ∀ r : Runner, ∀ o : Oracle, ∀ s : BuildStep, ∀ σ : Nat,
      ∀ cmd : LC, ∀ rest : List LC,
      (shDispatch tk r o s cmd).2 = .ok → r.cm = true → o.stop σ = false →
      shR tk r o s σ (cmd :: rest)
        = ((shDispatch tk r o s cmd).1 ++ [.checkStop]
            ++ (shR tk r o s (σ + 1) rest).1,
          (shR tk r o s (σ + 1) rest).2.1, (shR tk r o s (σ + 1) rest).2.2))
    ∧ (∀ tk : Tokens, ∀ r : Runner, ∀ o : Oracle, ∀ s : BuildStep, ∀ σ : Nat,
      ∀ cmd : LC, ∀ rest : List LC,
      (shDispatch tk r o s cmd).2 = .ok → r.cm = true → o.stop σ = true →
      shR tk r o s σ (cmd :: rest)
        = ((shDispatch tk r o s cmd).1 ++ [.checkStop], σ + 1,
          .fail .cancelled))
    ∧ (∀ tk : Tokens, ∀ fuel : Nat, ∀ r : Runner, ∀ o : Oracle, ∀ σ : Nat,
      ∀ name : LC, ∀ rest : List LC, ∀ child : Runner,
      buildChild r o name = .ok child →
      (runR tk fuel child o σ).2.2 = .ok → r.cm = true →
      o.stop (runR tk fuel child o σ).2.1 = false →
      callR tk (fuel + 1) r o σ (name :: rest)
        = ((runR tk fuel child o σ).1 ++ [.checkStop]
            ++ (callR tk (fuel + 1) r o
              ((runR tk fuel child o σ).2.1 + 1) rest).1,
          (callR tk (fuel + 1) r o
            ((runR tk fuel child o σ).2.1 + 1) rest).2.1,
          (callR tk (fuel + 1) r o
            ((runR tk fuel child o σ).2.1 + 1) rest).2.2))
    ∧ (∀ tk : Tokens, ∀ fuel : Nat, ∀ r : Runner, ∀ o : Oracle, ∀ σ : Nat,
      ∀ name : LC, ∀ rest : List LC, ∀ child : Runner,
      buildChild r o name = .ok child →
      (runR tk fuel child o σ).2.2 = .ok → r.cm = true →
      o.stop (runR tk fuel child o σ).2.1 = true →
      callR tk (fuel + 1) r o σ (name :: rest)
        = ((runR tk fuel child o σ).1 ++ [.checkStop],
          (runR tk fuel child o σ).2.1 + 1, .fail .cancelled))
    ∧ (∀ tk : Tokens, ∀ fuel : Nat, ∀ r : Runner, ∀ o : Oracle, ∀ σ : Nat,
      ∀ s : BuildStep, ∀ rest : List BuildStep,
      (stepR tk fuel r o σ s).2.2 = .ok →
      (artifactsR tk r o s.name r.pip.artifacts).2 = .ok → r.cm = true →
      o.stop (stepR tk fuel r o σ s).2.1 = false →
      stepsR tk fuel r o σ (s :: rest)
        = ((stepR tk fuel r o σ s).1
            ++ (artifactsR tk r o s.name r.pip.artifacts).1 ++ [.checkStop]
            ++ (stepsR tk fuel r o ((stepR tk fuel r o σ s).2.1 + 1) rest).1,
          (stepsR tk fuel r o ((stepR tk fuel r o σ s).2.1 + 1) rest).2.1,
          (stepsR tk fuel r o ((stepR tk fuel r o σ s).2.1 + 1) rest).2.2))
    ∧ (∀ tk : Tokens, ∀ fuel : Nat, ∀ r : Runner, ∀ o : Oracle, ∀ σ : Nat,
      ∀ s : BuildStep, ∀ rest : List BuildStep,
      (stepR tk fuel r o σ s).2.2 = .ok →
      (artifactsR tk r o s.name r.pip.artifacts).2 = .ok → r.cm = true →
      o.stop (stepR tk fuel r o σ s).2.1 = true →
      stepsR tk fuel r o σ (s :: rest)
        = ((stepR tk fuel r o σ s).1
            ++ (artifactsR tk r o s.name r.pip.artifacts).1 ++ [.checkStop],
          (stepR tk fuel r o σ s).2.1 + 1, .fail .cancelled)) := by
  refine ⟨?_, ?_, ?_, ?_, ?_, ?_⟩
  · intro tk r o s σ cmd rest h hcm hs
    exact shR_cons_go tk r o s σ cmd rest h hcm hs
  · intro tk r o s σ cmd rest h hcm hs
    exact shR_cons_stop tk r o s σ cmd rest h hcm hs
  · intro tk fuel r o σ name rest child h h2 hcm hs
    exact callR_cons_go tk fuel r o σ name rest child h h2 hcm hs
  · intro tk fuel r o σ name rest child h h2 hcm hs
    exact callR_cons_stop tk fuel r o σ name rest child h h2 hcm hs
  · intro tk fuel r o σ s rest h h2 hcm hs
    exact stepsR_cons_go tk fuel r o σ s rest h h2 hcm hs
  · intro tk fuel r o σ s rest h h2 hcm hs
    exact stepsR_cons_stop tk fuel r o σ s rest h h2 hcm hs

/-- Witness for C8: concrete poll-after-command, poll-after-call and
poll-after-step instances, in both the quiescent and the cancelling
case. -/
theorem C8_stop_checkpoints_witness :
    shR tkW rC3 oC3 sAfter 0 [("after".data)]
      = ((shDispatch tkW rC3 oC3 sAfter ("after".data)).1 ++ [.checkStop]
          ++ (shR tkW rC3 oC3 sAfter 1 []).1,
        (shR tkW rC3 oC3 sAfter 1 []).2.1, (shR tkW rC3 oC3 sAfter 1 []).2.2)
    ∧ shR tkW rC3 oStop sAfter 0 [("after".data)]
      = ((shDispatch tkW rC3 oStop sAfter ("after".data)).1 ++ [.checkStop],
        1, .fail .cancelled)
    ∧ callR tkW 1 rC3b oW 0 [("childd".data)]
      = ((runR tkW 0 rChildD oW 0).1 ++ [.checkStop]
          ++ (callR tkW 1 rC3b oW ((runR tkW 0 rChildD oW 0).2.1 + 1) []).1,
        (callR tkW 1 rC3b oW ((runR tkW 0 rChildD oW 0).2.1 + 1) []).2.1,
        (callR tkW 1 rC3b oW ((runR tkW 0 rChildD oW 0).2.1 + 1) []).2.2)
    ∧ callR tkW 1 rC3b oStop 0 [("childd".data)]
      = ((runR tkW 0 rChildD oStop 0).1 ++ [.checkStop],
        (runR tkW 0 rChildD oStop 0).2.1 + 1, .fail .cancelled)
    ∧ stepsR tkW 1 rC3 oC3 0 [sAfter]
      = ((stepR tkW 1 rC3 oC3 0 sAfter).1
          ++ (artifactsR tkW rC3 oC3 sAfter.name rC3.pip.artifacts).1
          ++ [.checkStop]
          ++ (stepsR tkW 1 rC3 oC3 ((stepR tkW 1 rC3 oC3 0 sAfter).2.1 + 1)
            []).1,
        (stepsR tkW 1 rC3 oC3 ((stepR tkW 1 rC3 oC3 0 sAfter).2.1 + 1)
          []).2.1,
        (stepsR tkW 1 rC3 oC3 ((stepR tkW 1 rC3 oC3 0 sAfter).2.1 + 1)
          []).2.2)
    ∧ stepsR tkW 1 rC3 oStopAt1 0 [sAfter]
      = ((stepR tkW 1 rC3 oStopAt1 0 sAfter).1
          ++ (artifactsR tkW rC3 oStopAt1 sAfter.name rC3.pip.artifacts).1
          ++ [.checkStop],
        (stepR tkW 1 rC3 oStopAt1 0 sAfter).2.1 + 1, .fail .cancelled) := by
  have h := C8_stop_checkpoints
  exact ⟨h.1 tkW rC3 oC3 sAfter 0 ("after".data) [] (by decide) rfl rfl,
    h.2.1 tkW rC3 oStop sAfter 0 ("after".data) [] (by decide) rfl rfl,
    h.2.2.1 tkW 0 rC3b oW 0 ("childd".data) [] rChildD rfl (by decide) rfl
      (by decide),
    h.2.2.2.1 tkW 0 rC3b oStop 0 ("childd".data) [] rChildD rfl (by decide)
      rfl (by decide),
    h.2.2.2.2.1 tkW 1 rC3 oC3 0 sAfter [] (by decide) rfl rfl (by decide),
    h.2.2.2.2.2 tkW 1 rC3 oStopAt1 0 sAfter [] (by decide) rfl rfl
      (by decide)⟩

/-- C2: platform.rs guards machine disposal against child frames — its
TargetPlatform::dispose is a no-op for Machine when called from a child
runner and removes the per-run temp directory only at the root — but
runner.rs bypasses this guard: its Runner::dispose calls
Machine::dispose directly, so a child runner whose pipeline sets the
dispose flag removes the shared per-run temp directory even though the
root pipeline's dispose flag is clear (the concrete run below shows the
removal event for the shared run id appearing in the root trace). -/
theorem C2_dispose_child_guard :
    (∀ m : Machine, ∀ o : Oracle,
      TargetPlatform.dispose (.machine m) true o = ([], .ok))
    ∧ (∀ m : Machine, ∀ o : Oracle,
      TargetPlatform.dispose (.machine m) false o = Machine.dispose m o)
    ∧ rC2.pip.dispose = false
    ∧ Event.removeTempDir ("rid".data) ∈ (runR tkW 2 rC2 oW 0).1 := by
  refine ⟨fun m o => rfl, fun m o => rfl, rfl, by decide⟩

/- ### HashMap-model lemmas and the build contract -/

theorem hmGet_foldl_skip (k : LC) :
    ∀ l : List (LC × LC), ∀ acc : Option LC, k ∉ l.map Prod.fst →
      l.foldl (fun acc kv => if kv.1 = k then some kv.2 else acc) acc = acc := by
  intro l
  induction l with
  | nil => intro acc _; rfl
  | cons kv rest ih =>
    intro acc h
    rw [List.map_cons, List.mem_cons] at h
    push_neg at h
    rw [List.foldl_cons, if_neg (fun hc => h.1 hc.symm), ih acc h.2]

theorem hmGet_not_mem (m : List (LC × LC)) (k : LC)
    (h : k ∉ m.map Prod.fst) : hmGet m k = none :=
  hmGet_foldl_skip k m none h

theorem keys_insertHM (m : List (LC × LC)) (kv : LC × LC) :
    ∀ x, x ∈ (insertHM m kv).map Prod.fst →
      x ∈ m.map Prod.fst ∨ x = kv.1 := by
  intro x hx
  rw [insertHM] at hx
  by_cases h : m.any (fun e => decide (e.1 = kv.1))
  · rw [if_pos h, List.map_map, List.mem_map] at hx
    obtain ⟨e, he, hex⟩ := hx
    by_cases h2 : e.1 = kv.1
    · right
      simpa [h2] using hex.symm
    · left
      rw [List.mem_map]
      exact ⟨e, he, by simpa [h2] using hex⟩
  · rw [if_neg h, List.map_append, List.mem_append] at hx
    rcases hx with hx | hx
    · exact Or.inl hx
    · right
      simpa using hx

theorem keys_foldl_insertHM :
    ∀ l m : List (LC × LC), ∀ x, x ∈ ((l.foldl insertHM m).map Prod.fst) →
      x ∈ m.map Prod.fst ∨ x ∈ l.map Prod.fst := by
  intro l
  induction l with
  | nil => intro m x hx; exact Or.inl hx
  | cons kv rest ih =>
    intro m x hx
    rcases ih (insertHM m kv) x hx with hx2 | hx2
    · rcases keys_insertHM m kv x hx2 with hx3 | hx3
      · exact Or.inl hx3
      · exact Or.inr (by simp [hx3])
    · exact Or.inr (by simp [hx2])

theorem hmGet_collectHM_not_mem (l : List (LC × LC)) (k : LC)
    (h : k ∉ l.map Prod.fst) : hmGet (collectHM l) k = none := by
  apply hmGet_not_mem
  intro hc
  rcases keys_foldl_insertHM l [] k hc with hx | hx
  · simp at hx
  · exact h hx

theorem collectHM_go_nodup :
    ∀ l m : List (LC × LC), ((m ++ l).map Prod.fst).Nodup →
      l.foldl insertHM m = m ++ l := by
  intro l
  induction l with
  | nil => intro m _; simp
  | cons kv rest ih =>
    intro m h
    have hnotin : kv.1 ∉ m.map Prod.fst := by
      rw [List.map_append, List.nodup_append] at h
      intro hc
      exact h.2.2 hc (by simp)
    have hins : insertHM m kv = m ++ [kv] := by
      rw [insertHM, if_neg]
      intro hc
      rw [List.any_eq_true] at hc
      obtain ⟨e, he, hee⟩ := hc
      rw [decide_eq_true_eq] at hee
      exact hnotin (List.mem_map.mpr ⟨e, he, hee⟩)
    rw [List.foldl_cons, hins, ih (m ++ [kv]) (by simpa using h)]
    simp

theorem collectHM_nodup (l : List (LC × LC))
    (h : (l.map Prod.fst).Nodup) : collectHM l = l := by
  have := collectHM_go_nodup l [] (by simpa using h)
  simpa [collectHM] using this

theorem hmGet_nodup_mem :
    ∀ m : List (LC × LC), (m.map Prod.fst).Nodup →
      ∀ k v, (k, v) ∈ m → hmGet m k = some v := by
  intro m
  induction m with
  | nil => intro _ k v h; simp at h
  | cons kv rest ih =>
    intro hnd k v hmem
    rw [List.map_cons, List.nodup_cons] at hnd
    rcases List.mem_cons.mp hmem with heq | hmem2
    · have hk : kv.1 = k := by rw [← heq]
      have hv : kv.2 = v := by rw [← heq]
      show List.foldl _ (if kv.1 = k then some kv.2 else none) rest = some v
      rw [if_pos hk, hv]
      exact hmGet_foldl_skip k rest (some v) (hk ▸ hnd.1)
    · have hk : k ∈ rest.map Prod.fst :=
        List.mem_map.mpr ⟨(k, v), hmem2, rfl⟩
      have hne : kv.1 ≠ k := fun hc => hnd.1 (hc ▸ hk)
      show List.foldl _ (if kv.1 = k then some kv.2 else none) rest = some v
      rw [if_neg hne]
      exact ih hnd.2 k v hmem2

theorem resolveDecls_keys (decls : List EnvDecl) (caller : LC → Option LC) :
    (resolveDecls decls caller).map Prod.fst = decls.map EnvDecl.name := by
  simp [resolveDecls, List.map_map]

/-- C10: when a Runner is built, the resolved environment is keyed exactly
by the pipeline-declared names (undeclared caller entries are dropped), and
each declared name maps to the caller value when supplied, else to its
declared default; likewise for variables. -/
theorem C10_build_resolution (prx : LC → Option Pipeline) (o : Oracle)
    (rid rst : LC) (ex : ExecKind) (cm : Bool)
    (cEnv cVars : LC → Option LC) (name : LC) (pip : Pipeline) (r : Runner)
    (hp : prx name = some pip)
    (hb : buildRunner prx o rid rst ex cm cEnv cVars name = .ok r) :
    (∀ n, n ∉ pip.environment.map EnvDecl.name → hmGet r.env n = none)
    ∧ ((pip.environment.map EnvDecl.name).Nodup →
        ∀ d ∈ pip.environment,
          hmGet r.env d.name = some ((cEnv d.name).getD d.default_value))
    ∧ (∀ n, n ∉ pip.vars.map EnvDecl.name → hmGet r.vars n = none)
    ∧ ((pip.vars.map EnvDecl.name).Nodup →
        ∀ d ∈ pip.vars,
          hmGet r.vars d.name = some ((cVars d.name).getD d.default_value)) := by
  obtain ⟨hpip, henv, hvars, -, -, -, -, -⟩ :=
    buildRunner_fields prx o rid rst ex cm cEnv cVars name pip r hp hb
  refine ⟨?_, ?_, ?_, ?_⟩
  · intro n hn
    rw [henv]
    exact hmGet_collectHM_not_mem _ n (by rwa [resolveDecls_keys])
  · intro hnd d hd
    rw [henv, collectHM_nodup _ (by rwa [resolveDecls_keys])]
    exact hmGet_nodup_mem _ (by rwa [resolveDecls_keys]) _ _
      (List.mem_map.mpr ⟨d, hd, rfl⟩)
  · intro n hn
    rw [hvars]
    exact hmGet_collectHM_not_mem _ n (by rwa [resolveDecls_keys])
  · intro hnd d hd
    rw [hvars, collectHM_nodup _ (by rwa [resolveDecls_keys])]
    exact hmGet_nodup_mem _ (by rwa [resolveDecls_keys]) _ _
      (List.mem_map.mpr ⟨d, hd, rfl⟩)

/-- Witness for C10: the undeclared caller entry Z is dropped, the
overridden A resolves to the caller value, the unsupplied V resolves to its
default. -/
theorem C10_build_resolution_witness :
    cEnvW ("Z".data) = some ("zz".data)
    ∧ hmGet rBuilt.env ("Z".data) = none
    ∧ hmGet rBuilt.env ("A".data) = some ("va".data)
    ∧ hmGet rBuilt.vars ("V".data) = some ("y".data) := by
  have h := C10_build_resolution prxW oW ("rid".data) ("rst".data) .real true
    cEnvW cVarsW ("p".data) pipW rBuilt rfl rfl
  refine ⟨by decide, h.1 ("Z".data) (by decide), ?_, ?_⟩
  · have := h.2.1 (by decide) ⟨"A".data, "x".data⟩ (by decide)
    simpa [cEnvW] using this
  · have := h.2.2.2 (by decide) ⟨"V".data, "y".data⟩ (by decide)
    simpa [cVarsW] using this

/-- Counterexample to C6 as stated: with resolved environment A ↦ x, the
string env:AB contains the env token for the name AB, which exists in no
map; the claim says it must appear verbatim in the output, but the pass
for the resolved name A rewrites its prefix, producing xB. -/
theorem C6_counterexample :
    hmGet rC6.env ("AB".data) = none
    ∧ (∀ d ∈ rC6.pip.environment, ¬ d.name = "AB".data)
    ∧ containsSub (tkC6.ENV_TOKEN ++ "AB".data) ("env:AB".data) = true
    ∧ applyContext tkC6 rC6 ("env:AB".data) = "xB".data
    ∧ containsSub (tkC6.ENV_TOKEN ++ "AB".data)
        (applyContext tkC6 rC6 ("env:AB".data)) = false := by
  refine ⟨by decide, by decide, by decide, by decide, by decide⟩

end Bld
